import Mathlib

/-!
Verification development for the cyberbullying model-comparison pipeline
(`backend/ml_pipeline.py`, `backend/routes.py`, `backend/data_loader.py`,
`backend/ml_engine/pipeline.py`).

The Python sources are shallowly embedded here:
* numeric values are exact rationals (`ℚ`); `round(x, n)` is modelled by
  `roundTo n` (round-half-to-even, as Python's `round`);
* the in-memory caches (`_tfidf_vectorizer`, `_embedding_pipeline`,
  `_trained_models`, `_comparison_results`) become an explicit state record
  threaded through the functions;
* Python dicts become insertion-ordered association lists;
* exceptions become `Except PyErr`, where `PyErr` records whether the
  exception is a `ValueError` (the class the route handlers switch on);
* the scikit-learn numeric kernels (fitting, predicting, probability
  estimation, matrix transforms) are not re-implemented; they are abstract
  functions supplied through a `Backend` record.  Fitted extractor state is
  represented by the data that determines it (the hyper-parameters and the
  corpus it was fit on), so "fit on the training documents" is expressible
  as an equality;
* wall-clock readings (`time.time()`) become an explicit `Clock` record of
  the six readings a training call takes.
-/

namespace SAJ

/-! ### Basic list and string helpers -/

/-- Maximum of a list of rationals (`np.max` / Python `max` on a non-empty
list; the `[]` case returns 0 only so the function is total — call sites
that can reach it model the corresponding Python exception separately). -/
def listMaxQ : List ℚ → ℚ
  | [] => 0
  | x :: xs => xs.foldl max x

/-- Arithmetic mean of a list of rationals (`np.mean`). -/
def meanQ (l : List ℚ) : ℚ := l.sum / l.length

/-- `pat` occurs as a leading run of `l`. -/
def listLeadsWith : List Char → List Char → Bool
  | [], _ => true
  | _ :: _, [] => false
  | a :: as, b :: bs => a == b && listLeadsWith as bs

/-- Substring test, used to state what a surfaced error message mentions. -/
def strContains (s pat : String) : Bool :=
  (List.range (s.data.length + 1)).any fun i => listLeadsWith pat.data (s.data.drop i)

/-! ### Python-style rounding over ℚ

`round(x, n)` in Python rounds half to even.  We model the float value
exactly as a rational. -/

/-- Round half to even, to an integer. -/
def roundHalfEven (q : ℚ) : ℤ :=
  let f : ℤ := ⌊q⌋
  if q - f < 1/2 then f
  else if q - f > 1/2 then f + 1
  else if f % 2 = 0 then f else f + 1

/-- `round(q, n)` : round to `n` decimal places, half to even. -/
def roundTo (n : ℕ) (q : ℚ) : ℚ :=
  ((roundHalfEven (q * 10 ^ n) : ℤ) : ℚ) / 10 ^ n




/-! ### scikit-learn scoring functions (binary, `pos_label=1`, `zero_division=0`)

These mirror `accuracy_score`, `precision_score`, `recall_score`,
`f1_score` and `confusion_matrix` as used in `ml_pipeline.train_model`
(labels are drawn from `{0,1}`; scikit-learn additionally validates that
the two label sequences have equal length, which callers here guarantee). -/

/-- Number of positions where prediction equals truth. -/
def countAgree (y_true y_pred : List ℕ) : ℕ :=
  ((y_true.zip y_pred).filter fun p => p.1 == p.2).length

/-- Number of positions with truth `t` and prediction `p`. -/
def countTP2 (y_true y_pred : List ℕ) (t p : ℕ) : ℕ :=
  ((y_true.zip y_pred).filter fun q => q.1 == t && q.2 == p).length

/-- `accuracy_score`. -/
def accuracyScore (y_true y_pred : List ℕ) : ℚ :=
  (countAgree y_true y_pred : ℚ) / (y_true.length : ℚ)

/-- `precision_score(..., zero_division=0)`, binary with positive label 1. -/
def precisionScore (y_true y_pred : List ℕ) : ℚ :=
  let tp := countTP2 y_true y_pred 1 1
  let fp := countTP2 y_true y_pred 0 1
  if tp + fp = 0 then 0 else (tp : ℚ) / ((tp : ℚ) + (fp : ℚ))

/-- `recall_score(..., zero_division=0)`, binary with positive label 1. -/
def recallScore (y_true y_pred : List ℕ) : ℚ :=
  let tp := countTP2 y_true y_pred 1 1
  let fn := countTP2 y_true y_pred 1 0
  if tp + fn = 0 then 0 else (tp : ℚ) / ((tp : ℚ) + (fn : ℚ))

/-- `f1_score(..., zero_division=0)`, binary with positive label 1. -/
def f1Score (y_true y_pred : List ℕ) : ℚ :=
  let p := precisionScore y_true y_pred
  let r := recallScore y_true y_pred
  if p + r = 0 then 0 else 2 * p * r / (p + r)

/-- Sorted duplicate-free label set observed in the two sequences
(`confusion_matrix` infers its label axis this way). -/
def observedLabels (y_true y_pred : List ℕ) : List ℕ :=
  (List.range ((y_true ++ y_pred).foldl max 0 + 1)).filter
    fun l => (y_true ++ y_pred).contains l

/-- `confusion_matrix(y_true, y_pred).tolist()` : entry `(i, j)` counts
samples with true label `labels[i]` and predicted label `labels[j]`. -/
def confusionMatrix (y_true y_pred : List ℕ) : List (List ℕ) :=
  (observedLabels y_true y_pred).map fun t =>
    (observedLabels y_true y_pred).map fun p => countTP2 y_true y_pred t p

/-- Per-class F1 (one-vs-rest), used by the weighted average. -/
def f1ForClass (y_true y_pred : List ℕ) (c : ℕ) : ℚ :=
  let tp := ((y_true.zip y_pred).filter fun q => q.1 == c && q.2 == c).length
  let fp := ((y_true.zip y_pred).filter fun q => !(q.1 == c) && q.2 == c).length
  let fn := ((y_true.zip y_pred).filter fun q => q.1 == c && !(q.2 == c)).length
  let p : ℚ := if tp + fp = 0 then 0 else (tp : ℚ) / ((tp : ℚ) + (fp : ℚ))
  let r : ℚ := if tp + fn = 0 then 0 else (tp : ℚ) / ((tp : ℚ) + (fn : ℚ))
  if p + r = 0 then 0 else 2 * p * r / (p + r)

/-- `f1_score(..., average="weighted", zero_division=0)` as used by
`ml_engine/pipeline.py`: per-class F1 weighted by true support. -/
def f1ScoreWeighted (y_true y_pred : List ℕ) : ℚ :=
  ((observedLabels y_true y_pred).map fun c =>
      ((y_true.filter fun t => t == c).length : ℚ) * f1ForClass y_true y_pred c).sum
    / (y_true.length : ℚ)

/-! ### Model configurations (`MODEL_CONFIGS`) -/

structure ModelConfig where
  display_name : String
  feature : String
  classifier : String
  description : String
deriving DecidableEq, Repr

/-- `MODEL_CONFIGS` from `ml_pipeline.py` — six (model key, configuration)
pairs, in the source's insertion order. -/
def MODEL_CONFIGS : List (String × ModelConfig) :=
  [ ("tfidf_naive_bayes",
      { display_name := "TF-IDF + Naive Bayes"
        feature := "tfidf"
        classifier := "naive_bayes"
        description := "Multinomial Naive Bayes with TF-IDF features — fast probabilistic baseline" })
  , ("tfidf_svm",
      { display_name := "TF-IDF + SVM"
        feature := "tfidf"
        classifier := "svm"
        description := "Linear SVM with TF-IDF features — strong margin-based classifier" })
  , ("tfidf_logistic_regression",
      { display_name := "TF-IDF + Logistic Regression"
        feature := "tfidf"
        classifier := "logistic_regression"
        description := "Logistic Regression with TF-IDF — interpretable linear model" })
  , ("w2v_naive_bayes",
      { display_name := "Word Embeddings + Naive Bayes"
        feature := "word_embeddings"
        classifier := "naive_bayes"
        description := "Gaussian Naive Bayes with dense LSA embeddings — semantic feature baseline" })
  , ("w2v_svm",
      { display_name := "Word Embeddings + SVM"
        feature := "word_embeddings"
        classifier := "svm"
        description := "Linear SVM with dense LSA embeddings — semantic margin classifier" })
  , ("w2v_logistic_regression",
      { display_name := "Word Embeddings + Logistic Regression"
        feature := "word_embeddings"
        classifier := "logistic_regression"
        description := "Logistic Regression with dense LSA embeddings — interpretable semantic model" })
  ]

/-! ### Exceptions

Route handlers distinguish exceptions only by class: `except ValueError`
versus `except Exception`.  `PyErr` keeps exactly that bit plus the
message. -/

structure PyErr where
  is_value_error : Bool
  msg : String
deriving DecidableEq, Repr

/-! ### Classifier factory (`_create_classifier`) -/

/-- Untrained classifier instance, with the constructor arguments from the
source.  Every one of the four scikit-learn classes instantiated here
exposes `predict_proba` (the linear SVM is wrapped in
`CalibratedClassifierCV`). -/
inductive ClassifierSpec where
  | multinomialNB (alpha : ℚ)
  | gaussianNB
  | calibratedSVC (max_iter : ℕ) (random_state : ℕ) (c : ℚ) (cv : ℕ)
  | logisticRegression (max_iter : ℕ) (random_state : ℕ) (c : ℚ)
deriving DecidableEq, Repr

/-- `_create_classifier(classifier_type, feature_type)`.  The unknown-family
branch raises `ValueError`. -/
def createClassifier (classifier_type feature_type : String) : Except PyErr ClassifierSpec :=
  if classifier_type = "naive_bayes" then
    if feature_type = "tfidf" then .ok (.multinomialNB 1)
    else .ok .gaussianNB
  else if classifier_type = "svm" then
    .ok (.calibratedSVC 2000 42 1 3)
  else if classifier_type = "logistic_regression" then
    .ok (.logisticRegression 1000 42 1)
  else
    .error ⟨true, "Unknown classifier: " ++ classifier_type⟩

/-! ### Fitted extractor state

Fitting a scikit-learn extractor is a deterministic function of the
hyper-parameters and of the corpus it is fit on, so the fitted state is
represented by exactly that data; "the same fitted projection axes" then
becomes equality of these records. -/

/-- Fitted `TfidfVectorizer(max_features=…, ngram_range=(1,2), sublinear_tf=True)`. -/
structure FittedTfidf where
  max_features : ℕ
  corpus : List String
deriving DecidableEq, Repr

/-- Fitted `make_pipeline(CountVectorizer(max_features=…, ngram_range=(1,2)),
TruncatedSVD(n_components=…, random_state=…), Normalizer(copy=False))`. -/
structure FittedEmbedding where
  n_components : ℕ
  max_features : ℕ
  random_state : ℕ
  corpus : List String
deriving DecidableEq, Repr

/-- Feature matrix (dense or sparse — entries as exact rationals). -/
abbrev Mat := List (List ℚ)

/-- Abstract scikit-learn numeric kernels.  `FC` is the type of fitted
classifiers (opaque to the pipeline).  Any of these operations may raise,
mirroring arbitrary library exceptions. -/
structure Backend (FC : Type) where
  tfidfTransform : FittedTfidf → List String → Except PyErr Mat
  embTransform : FittedEmbedding → List String → Except PyErr Mat
  fitClf : ClassifierSpec → Mat → List ℕ → Except PyErr FC
  clfPredict : FC → Mat → Except PyErr (List ℕ)
  hasPredictProba : FC → Bool
  clfPredictProba : FC → Mat → Except PyErr (List (List ℚ))

/-! ### Module state (the global caches of `ml_pipeline.py`) -/

/-- One entry of `_trained_models` : the dict literal stored at line 162. -/
structure CacheEntry (FC : Type) where
  model : FC
  feature_type : String
  tfidf_vec : Option FittedTfidf
  embedding_pipeline : Option FittedEmbedding
deriving DecidableEq, Repr

/-- Insertion-ordered dict write: updating an existing key keeps its
position, a new key is appended (CPython dict semantics). -/
def dictSet {α : Type} : List (String × α) → String → α → List (String × α)
  | [], k, v => [(k, v)]
  | (k0, v0) :: rest, k, v =>
    if k0 = k then (k0, v) :: rest else (k0, v0) :: dictSet rest k v

/-- Dict lookup. -/
def dictGet {α : Type} : List (String × α) → String → Option α
  | [], _ => none
  | (k0, v0) :: rest, k => if k0 = k then some v0 else dictGet rest k



/-- The module-level mutable state of `ml_pipeline.py`. -/
structure PipelineState (FC : Type) where
  tfidf_vectorizer : Option FittedTfidf
  embedding_pipeline : Option FittedEmbedding
  trained_models : List (String × CacheEntry FC)
deriving DecidableEq, Repr

/-- Fresh module state (process start). -/
def emptyPipelineState (FC : Type) : PipelineState FC :=
  { tfidf_vectorizer := none, embedding_pipeline := none, trained_models := [] }

/-! ### Training & evaluation (`ml_pipeline.train_model`) -/

/-- The six `time.time()` readings a training call takes. -/
structure Clock where
  featStart : ℚ
  featEnd : ℚ
  trainStart : ℚ
  trainEnd : ℚ
  predStart : ℚ
  predEnd : ℚ
deriving DecidableEq, Repr

/-- `classifier_type.replace("_", " ")` — single-character replacement. -/
def replaceUnderscores (s : String) : String :=
  ⟨s.data.map fun c => if c == '_' then ' ' else c⟩

/-- Python `str.title()` restricted to space-separated lowercase words:
uppercase the first letter of every word. -/
def titleCaseAux : Bool → List Char → List Char
  | _, [] => []
  | atStart, c :: cs =>
    if c == ' ' then c :: titleCaseAux true cs
    else (if atStart then c.toUpper else c) :: titleCaseAux false cs

def titleCase (s : String) : String := ⟨titleCaseAux true s.data⟩

/-- The Python idiom `round(confidence, 4) if confidence else None`:
`None` stays `None`, and — because `0.0` is falsy — a confidence of
exactly `0` is also reported as `None`. -/
def pyTruthyRound4 (confidence : Option ℚ) : Option ℚ :=
  match confidence with
  | none => none
  | some c => if c = 0 then none else some (roundTo 4 c)

structure MetricsBundle where
  accuracy : ℚ
  precision : ℚ
  -- dict key "recall" (`recall` is a reserved word here)
  recl : ℚ
  f1_score : ℚ
deriving DecidableEq, Repr

structure TimingBundle where
  feature_extraction_sec : ℚ
  training_sec : ℚ
  prediction_sec : ℚ
  total_sec : ℚ
deriving DecidableEq, Repr

/-- The dict returned by `ml_pipeline.train_model` (lines 169–191). -/
structure TrainResult where
  model_key : String
  display_name : String
  description : String
  feature_method : String
  classifier : String
  metrics : MetricsBundle
  timing : TimingBundle
  confusion_matrix : List (List ℕ)
  avg_confidence : Option ℚ
  train_samples : ℕ
  test_samples : ℕ
deriving DecidableEq, Repr

/-- Lines 152–191 of `ml_pipeline.py`: compute the metrics from the raw
predictions and package the result dict.  All rounding happens here, on
the unrounded values, once; in particular `total_time` is the sum of the
three unrounded stage times. -/
def scoreAndPackage (model_key : String) (config : ModelConfig)
    (feat_time train_time pred_time : ℚ) (y_test y_pred : List ℕ)
    (confidence : Option ℚ) (train_samples test_samples : ℕ) : TrainResult :=
  let acc := accuracyScore y_test y_pred
  let prec := precisionScore y_test y_pred
  let rcl := recallScore y_test y_pred
  let f1 := f1Score y_test y_pred
  let cm := confusionMatrix y_test y_pred
  let total_time := feat_time + train_time + pred_time
  { model_key := model_key
    display_name := config.display_name
    description := config.description
    feature_method := if config.feature = "tfidf" then "TF-IDF" else "Word Embeddings"
    classifier := titleCase (replaceUnderscores config.classifier)
    metrics :=
      { accuracy := roundTo 4 acc
        precision := roundTo 4 prec
        recl := roundTo 4 rcl
        f1_score := roundTo 4 f1 }
    timing :=
      { feature_extraction_sec := roundTo 3 feat_time
        training_sec := roundTo 3 train_time
        prediction_sec := roundTo 3 pred_time
        total_sec := roundTo 3 total_time }
    confusion_matrix := cm
    avg_confidence := pyTruthyRound4 confidence
    train_samples := train_samples
    test_samples := test_samples }

/-- `build_tfidf`: rebinds the module global to a vectorizer fit on
`X_train`, then transforms both sets with it.  The global is rebound
before the transform runs, as in the source. -/
def buildTfidf {FC : Type} (B : Backend FC) (st : PipelineState FC)
    (X_train X_test : List String) : Except PyErr (Mat × Mat) × PipelineState FC :=
  let v : FittedTfidf := { max_features := 15000, corpus := X_train }
  let st' := { st with tfidf_vectorizer := some v }
  (match B.tfidfTransform v X_train with
   | .error e => .error e
   | .ok xtr =>
     match B.tfidfTransform v X_test with
     | .error e => .error e
     | .ok xte => .ok (xtr, xte), st')

/-- `build_word_embeddings`: count-vectorizer + `TruncatedSVD(n_components=200,
random_state=42)` + normalizer, fit on `X_train` only; `X_test` is
transformed with the same fitted pipeline (`transform`, not `fit_transform`). -/
def buildWordEmbeddings {FC : Type} (B : Backend FC) (st : PipelineState FC)
    (X_train X_test : List String) : Except PyErr (Mat × Mat) × PipelineState FC :=
  let p : FittedEmbedding :=
    { n_components := 200, max_features := 20000, random_state := 42, corpus := X_train }
  let st' := { st with embedding_pipeline := some p }
  (match B.embTransform p X_train with
   | .error e => .error e
   | .ok xtr =>
     match B.embTransform p X_test with
     | .error e => .error e
     | .ok xte => .ok (xtr, xte), st')

/-- `ml_pipeline.train_model`.  Stages: feature extraction → classifier
creation → fit → predict → probabilities → metrics → cache write.  Any
stage may fail; the cache (`trained_models`) is written only after every
stage has succeeded.  The returned state keeps whatever the call had
already done to the extractor globals (Python module globals survive an
exception). -/
def trainModel {FC : Type} (B : Backend FC) (ck : Clock) (st : PipelineState FC)
    (model_key : String) (X_train X_test : List String) (y_train y_test : List ℕ) :
    Except PyErr TrainResult × PipelineState FC :=
  match List.lookup model_key MODEL_CONFIGS with
  | none => (.error ⟨false, "KeyError: " ++ model_key⟩, st)
  | some config =>
    let feature_type := config.feature
    let classifier_type := config.classifier
    let feat_time := ck.featEnd - ck.featStart
    match (if feature_type = "tfidf" then buildTfidf B st X_train X_test
           else buildWordEmbeddings B st X_train X_test) with
    | (.error e, st') => (.error e, st')
    | (.ok (x_train_vec, x_test_vec), st') =>
      match createClassifier classifier_type feature_type with
      | .error e => (.error e, st')
      | .ok spec =>
        let train_time := ck.trainEnd - ck.trainStart
        match B.fitClf spec x_train_vec y_train with
        | .error e => (.error e, st')
        | .ok clf =>
          let pred_time := ck.predEnd - ck.predStart
          match B.clfPredict clf x_test_vec with
          | .error e => (.error e, st')
          | .ok y_pred =>
            match (if B.hasPredictProba clf then
                     match B.clfPredictProba clf x_test_vec with
                     | .error e => .error e
                     | .ok probas => .ok (some (meanQ (probas.map listMaxQ)))
                   else (.ok none : Except PyErr (Option ℚ))) with
            | .error e => (.error e, st')
            | .ok confidence =>
              let entry : CacheEntry FC :=
                { model := clf
                  feature_type := feature_type
                  tfidf_vec := if feature_type = "tfidf" then st'.tfidf_vectorizer else none
                  embedding_pipeline :=
                    if feature_type = "word_embeddings" then st'.embedding_pipeline else none }
              let st'' := { st' with trained_models := dictSet st'.trained_models model_key entry }
              (.ok (scoreAndPackage model_key config feat_time train_time pred_time
                      y_test y_pred confidence y_train.length y_test.length), st'')

/-! ### Single-text prediction (`ml_pipeline.predict_text`) -/

/-- The dict returned by `predict_text`. -/
structure PredictResult where
  model_key : String
  text : String
  prediction : ℕ
  label : String
  confidence : Option ℚ
deriving DecidableEq, Repr

/-- The body of `predict_text` after the cache lookup succeeded: vectorize
the single text with the entry's own stored extractor (no fitting happens
anywhere on this path), predict, and attach the confidence. -/
def predictFromEntry {FC : Type} (B : Backend FC) (model_key : String)
    (cached : CacheEntry FC) (text : String) : Except PyErr PredictResult :=
  match (if cached.feature_type = "tfidf" then
           match cached.tfidf_vec with
           | some v => B.tfidfTransform v [text]
           | none => .error ⟨false, "AttributeError: NoneType has no attribute transform"⟩
         else
           match cached.embedding_pipeline with
           | some p => B.embTransform p [text]
           | none => .error ⟨false, "AttributeError: NoneType has no attribute transform"⟩) with
  | .error e => .error e
  | .ok vec =>
    match B.clfPredict cached.model vec with
    | .error e => .error e
    | .ok [] => .error ⟨false, "IndexError: index 0 is out of bounds"⟩
    | .ok (prediction :: _) =>
      match (if B.hasPredictProba cached.model then
               match B.clfPredictProba cached.model vec with
               | .error e => .error e
               | .ok [] => .error ⟨false, "IndexError: index 0 is out of bounds"⟩
               | .ok ([] :: _) => .error ⟨true, "max() arg is an empty sequence"⟩
               | .ok (row :: _) => .ok (some (listMaxQ row))
             else (.ok none : Except PyErr (Option ℚ))) with
      | .error e => .error e
      | .ok confidence =>
        .ok { model_key := model_key
              text := text
              prediction := prediction
              label := if prediction = 1 then "Cyberbullying" else "Not Cyberbullying"
              confidence := pyTruthyRound4 confidence }

/-- `predict_text`: raises `ValueError` when the identity has no cache
entry; otherwise predicts from the stored entry.  The module state is not
modified (the function only reads `_trained_models`). -/
def predictText {FC : Type} (B : Backend FC) (st : PipelineState FC)
    (model_key text : String) : Except PyErr PredictResult :=
  match dictGet st.trained_models model_key with
  | none => .error ⟨true, "Model '" ++ model_key ++ "' is not trained yet. Train it first."⟩
  | some cached => predictFromEntry B model_key cached text

/-- An element of the list `predict_all_models` builds: the `predict_text`
dict plus the `display_name` key added afterwards. -/
structure PredictAllItem extends PredictResult where
  display_name : String
deriving DecidableEq, Repr

/-- `predict_all_models`: iterate the cached identities in dict order;
any identity whose prediction (or config lookup) raises is silently
skipped — no error marker is appended. -/
def predictAllModels {FC : Type} (B : Backend FC) (st : PipelineState FC)
    (text : String) : List PredictAllItem :=
  st.trained_models.foldl
    (fun results p =>
      match predictText B st p.1 text with
      | .error _ => results
      | .ok r =>
        match List.lookup p.1 MODEL_CONFIGS with
        | none => results
        | some config => results ++ [{ toPredictResult := r, display_name := config.display_name }])
    []

/-! ### `ml_engine/pipeline.py` result assembly (lines 157–166) -/

/-- The dict returned by `ml_engine.pipeline.train_model`: accuracy and
weighted F1 rounded to 4 decimals, training time rounded to 4 decimals and
inference latency to 6. -/
structure MlEngineResult where
  model : String
  accuracy : ℚ
  f1_score : ℚ
  train_time_s : ℚ
  inference_latency_s : ℚ
deriving DecidableEq, Repr

def mlEngineTrainResult (name : String) (y_test preds : List ℕ)
    (train_time inference_time : ℚ) : MlEngineResult :=
  { model := name
    accuracy := roundTo 4 (accuracyScore y_test preds)
    f1_score := roundTo 4 (f1ScoreWeighted y_test preds)
    train_time_s := roundTo 4 train_time
    inference_latency_s := roundTo 6 inference_time }

/-! ### `data_loader.clean_text`

Faithful character-level model of the four `re.sub` passes (leftmost,
non-overlapping matches, scanning left to right):
`http\S+|www\.\S+` → `""`, `@\w+` → `""`, `[^a-z\s]` → `""`,
`\s+` → `" "`, then `str.strip()`. -/

/-- `\w` : word character. -/
def isWordChar (c : Char) : Bool := c.isAlphanum || c == '_'

/-- `\S` : non-whitespace. -/
def isNonSpace (c : Char) : Bool := !c.isWhitespace

/-- One left-to-right pass deleting matches of `http\S+|www\.\S+`
(fuel-indexed; each step consumes at least one character, so fuel =
length suffices). -/
def removeUrlsAux : ℕ → List Char → List Char
  | 0, l => l
  | _ + 1, [] => []
  | fuel + 1, c :: cs =>
    if listLeadsWith "http".data (c :: cs) &&
        (((c :: cs).drop 4).headD ' ' |> isNonSpace) then
      removeUrlsAux fuel (((c :: cs).drop 4).dropWhile isNonSpace)
    else if listLeadsWith "www.".data (c :: cs) &&
        (((c :: cs).drop 4).headD ' ' |> isNonSpace) then
      removeUrlsAux fuel (((c :: cs).drop 4).dropWhile isNonSpace)
    else
      c :: removeUrlsAux fuel cs

/-- One left-to-right pass deleting matches of `@\w+`. -/
def removeMentionsAux : ℕ → List Char → List Char
  | 0, l => l
  | _ + 1, [] => []
  | fuel + 1, c :: cs =>
    if c == '@' && (cs.headD ' ' |> isWordChar) then
      removeMentionsAux fuel (cs.dropWhile isWordChar)
    else
      c :: removeMentionsAux fuel cs

/-- `\s+` → `" "` : collapse whitespace runs to a single space. -/
def collapseWsAux : ℕ → List Char → List Char
  | 0, l => l
  | _ + 1, [] => []
  | fuel + 1, c :: cs =>
    if c.isWhitespace then ' ' :: collapseWsAux fuel (cs.dropWhile Char.isWhitespace)
    else c :: collapseWsAux fuel cs

/-- Python `str.strip()`. -/
def pyStrip (s : String) : String :=
  ⟨((s.data.dropWhile Char.isWhitespace).reverse.dropWhile Char.isWhitespace).reverse⟩

/-- `data_loader.clean_text` (the `isinstance` guard is vacuous here:
inputs are strings). -/
def clean_text (text : String) : String :=
  -- `str.lower()`; character-wise so that concrete runs reduce (ASCII inputs)
  let t1 := text.data.map Char.toLower
  let t2 := removeUrlsAux t1.length t1
  let t3 := removeMentionsAux t2.length t2
  let t4 := t3.filter fun c => ('a' ≤ c && c ≤ 'z') || c.isWhitespace
  let t5 := collapseWsAux t4.length t4
  pyStrip ⟨t5⟩

/-! ### Comparison ranking (`routes.py`)

`/train` updates the module-level `_comparison_results` list: drop any
entry with the same `model_key`, append the fresh result, then
`list.sort(key=f1_score, reverse=True)`.  CPython's sort is stable and
`reverse=True` preserves the order of equal keys, so the update is
*extensionally* the stable descending insertion sort below (a stable sort's
output is uniquely determined by the input order and the key). -/

/-- A comparison entry: the training result dict with the `dataset_id` key
the endpoint adds before caching it. -/
structure RankedResult where
  result : TrainResult
  dataset_id : String
deriving DecidableEq, Repr

/-- Sort key: `x["metrics"]["f1_score"]`. -/
def rankKey (r : RankedResult) : ℚ := r.result.metrics.f1_score

/-- Stable descending insert: pass entries with strictly larger key, stop
at the first entry with an equal or smaller key. -/
def insertDesc (x : RankedResult) : List RankedResult → List RankedResult
  | [] => [x]
  | y :: ys => if rankKey x < rankKey y then y :: insertDesc x ys else x :: y :: ys

/-- Stable sort, descending by F1 (extensionally `list.sort(key=…,
reverse=True)`). -/
def sortDesc : List RankedResult → List RankedResult
  | [] => []
  | x :: xs => insertDesc x (sortDesc xs)

/-- The `/train` endpoint's ranking update (routes.py lines 76–78). -/
def record (results : List RankedResult) (x : RankedResult) : List RankedResult :=
  sortDesc ((results.filter fun r => r.result.model_key != x.result.model_key) ++ [x])

/-- `/results` : `_comparison_results[0] if _comparison_results else None`. -/
def bestResult (results : List RankedResult) : Option RankedResult :=
  results.head?

/-! ### Route endpoints (`routes.py`) -/

/-- HTTP error surfaced to the caller (`HTTPException(status_code, detail)`).
The status code is the only machine-readable "kind" a caller receives. -/
structure HttpError where
  status : ℕ
  detail : String
deriving DecidableEq, Repr

/-- Module state visible to the routes: the pipeline globals plus
`_comparison_results`. -/
structure AppState (FC : Type) where
  pipeline : PipelineState FC
  comparison_results : List RankedResult
deriving DecidableEq, Repr

/-- `/train` (routes.py `train_model`).  The dataset collaborator
(`data_loader.get_train_test_split`) is external; its outcome is passed in
as `split`.  Unknown model keys are rejected with 400 before anything runs;
any exception out of the pipeline or the loader surfaces as a bare 500
whose detail is `str(e)` — the stage that failed is not part of the
response.  The ranking is updated only after a fully successful call. -/
def trainEndpoint {FC : Type} (B : Backend FC) (ck : Clock) (app : AppState FC)
    (model_key dataset_id : String)
    (split : Except PyErr (List String × List String × List ℕ × List ℕ)) :
    Except HttpError RankedResult × AppState FC :=
  if ¬ (MODEL_CONFIGS.any fun p => p.1 == model_key) then
    (.error ⟨400, "Unknown model: " ++ model_key⟩, app)
  else
    match split with
    | .error e => (.error ⟨500, e.msg⟩, app)
    | .ok (X_train, X_test, y_train, y_test) =>
      match trainModel B ck app.pipeline model_key X_train X_test y_train y_test with
      | (.error e, st') => (.error ⟨500, e.msg⟩, { app with pipeline := st' })
      | (.ok result, st') =>
        let rr : RankedResult := { result := result, dataset_id := dataset_id }
        (.ok rr, { pipeline := st', comparison_results := record app.comparison_results rr })

/-- `/predict` (routes.py `predict`).  Blank text (after `str.strip`) is
rejected with 400 before the cache is consulted; the raw text is cleaned
with `clean_text`; a `ValueError` out of `predict_text` surfaces as 400,
anything else as 500.  The module state is returned unchanged on every
path. -/
def predictEndpoint {FC : Type} (B : Backend FC) (app : AppState FC)
    (text model_key : String) : Except HttpError PredictResult × AppState FC :=
  if pyStrip text = "" then
    (.error ⟨400, "Text cannot be empty"⟩, app)
  else
    let cleaned := clean_text text
    match predictText B app.pipeline model_key cleaned with
    | .error e => (.error ⟨if e.is_value_error then 400 else 500, e.msg⟩, app)
    | .ok result => (.ok result, app)

/-! ### Feature-extractor transform semantics

Modelled from the library semantics of the fitted extractors the cache
stores (scikit-learn `TfidfVectorizer` / `CountVectorizer` +
`TruncatedSVD` + `Normalizer`): tokenization with the default token
pattern (runs of word characters of length ≥ 2, lowercased), unigram +
bigram counting over the fitted vocabulary, then either sublinear-TF/IDF
weighting or a linear projection, then row-wise L2 normalization (which
leaves an all-zero row unchanged).  The real-valued pieces that have no
exact rational form — `log` in the sublinear TF and the division by the
L2 norm of a *non-zero* row — are universal parameters (`qlog`, `nz`):
every statement below holds for any choice of them. -/

/-- Maximal runs of word characters (fuel-indexed scanner). -/
def tokenRunsAux : ℕ → List Char → List (List Char)
  | 0, _ => []
  | _ + 1, [] => []
  | fuel + 1, c :: cs =>
    if isWordChar c then
      ((c :: cs).takeWhile isWordChar) :: tokenRunsAux fuel ((c :: cs).dropWhile isWordChar)
    else
      tokenRunsAux fuel cs

/-- Default scikit-learn analyzer: lowercase, keep word-character runs of
length at least 2. -/
def sklearnTokens (doc : String) : List String :=
  ((tokenRunsAux (doc.data.map Char.toLower).length (doc.data.map Char.toLower)).filter
      fun r => 2 ≤ r.length).map fun r => ⟨r⟩

/-- `ngram_range=(1,2)`: unigrams plus adjacent bigrams. -/
def ngrams12 (toks : List String) : List String :=
  toks ++ (toks.zip (toks.drop 1)).map fun p => p.1 ++ " " ++ p.2

/-- Occurrences of a vocabulary term in a document. -/
def docTermCount (doc term : String) : ℕ :=
  (ngrams12 (sklearnTokens doc)).count term

/-- The document's raw count row over the fitted vocabulary. -/
def countVector (vocab : List String) (doc : String) : List ℕ :=
  vocab.map (docTermCount doc)

/-- Row-wise L2 normalization: an all-zero row is left unchanged (the
library substitutes norm 1 for zero norms); a non-zero row is divided by
its norm — represented by the parameter `nz`. -/
def l2normZeroAware (nz : List ℚ → List ℚ) (v : List ℚ) : List ℚ :=
  if v.all fun x => x == 0 then v else nz v

/-- Fitted `TfidfVectorizer` state: vocabulary and per-term IDF weights. -/
structure TfidfModel where
  vocabulary : List String
  idf : List ℚ
deriving DecidableEq, Repr

/-- Transform of one document by a fitted TF-IDF extractor with
`sublinear_tf=True`: entry `(1 + log tf) * idf` where `tf > 0`, and `0`
where the term does not occur; then L2 normalization. -/
def tfidfDocTransform (qlog : ℕ → ℚ) (nz : List ℚ → List ℚ)
    (m : TfidfModel) (doc : String) : List ℚ :=
  l2normZeroAware nz
    (List.zipWith (fun tf w => if tf = 0 then 0 else (1 + qlog tf) * w)
      (countVector m.vocabulary doc) m.idf)

/-- Fitted dense-semantic state: vocabulary plus the learned projection
axes (`TruncatedSVD.components_`). -/
structure SvdModel where
  vocabulary : List String
  components : List (List ℚ)
deriving DecidableEq, Repr

/-- Dot product (projection of the count row onto one component). -/
def dotQ (u v : List ℚ) : ℚ := (List.zipWith (fun a b => a * b) u v).sum

/-- Transform of one document by the fitted dense-semantic pipeline:
count row, linear projection onto the fitted axes, L2 normalization. -/
def svdDocTransform (nz : List ℚ → List ℚ) (m : SvdModel) (doc : String) : List ℚ :=
  l2normZeroAware nz
    (m.components.map fun row =>
      dotQ ((countVector m.vocabulary doc).map fun (n : ℕ) => (n : ℚ)) row)

/-! ### Concrete instances used by witnesses and counterexamples -/

instance {e a : Type} [DecidableEq e] [DecidableEq a] : DecidableEq (Except e a) := fun x y =>
  match x, y with
  | .error u, .error v =>
    if h : u = v then isTrue (by rw [h]) else isFalse (by intro hh; cases hh; exact h rfl)
  | .ok u, .ok v =>
    if h : u = v then isTrue (by rw [h]) else isFalse (by intro hh; cases hh; exact h rfl)
  | .error _, .ok _ => isFalse (by intro hh; cases hh)
  | .ok _, .error _ => isFalse (by intro hh; cases hh)

/-- A backend on which every operation succeeds (fitted classifiers are
represented by `ℕ`). -/
def B0 : Backend ℕ :=
  { tfidfTransform := fun _ docs => .ok (docs.map fun _ => [1])
    embTransform := fun _ docs => .ok (docs.map fun _ => [1])
    fitClf := fun _ _ _ => .ok 0
    clfPredict := fun _ m => .ok (m.map fun _ => 1)
    hasPredictProba := fun _ => true
    clfPredictProba := fun _ m => .ok (m.map fun _ => [1/2, 1/2]) }

/-- A backend whose feature extraction raises (`"boom"`, not a
`ValueError`). -/
def BFail : Backend ℕ :=
  { B0 with
    tfidfTransform := fun _ _ => .error ⟨false, "boom"⟩
    embTransform := fun _ _ => .error ⟨false, "boom"⟩ }

/-- A backend whose probability rows are degenerate (`[0, 0]`), so the mean
of the row maxima is exactly `0`. -/
def BZero : Backend ℕ :=
  { B0 with clfPredictProba := fun _ m => .ok (m.map fun _ => [0, 0]) }

/-- A backend on which only the dense-embedding transform raises. -/
def BEmbFail : Backend ℕ :=
  { B0 with embTransform := fun _ _ => .error ⟨true, "transform failed"⟩ }

/-- A fixed clock for witnesses. -/
def ck0 : Clock := ⟨0, 1, 2, 3, 4, 5⟩

/-- A second clock with different stage durations. -/
def ck1 : Clock := ⟨0, 2, 2, 5, 5, 9⟩

def Xtr0 : List String := ["you are awesome", "you are bad"]
def Xte0 : List String := ["so bad"]
def ytr0 : List ℕ := [0, 1]
def yte0 : List ℕ := [1]

/-- Keys of a comparison result list. -/
def rankedKeys (l : List RankedResult) : List String :=
  l.map fun r => r.result.model_key

/-- Descending order on adjacent entries (non-increasing F1). -/
def rankGE (a b : RankedResult) : Prop := rankKey b ≤ rankKey a

/-- The training result with its timing breakdown erased, to state which
fields are clock-independent. -/
def stripTiming (r : TrainResult) : TrainResult :=
  { r with timing := { feature_extraction_sec := 0, training_sec := 0,
                       prediction_sec := 0, total_sec := 0 } }

/-- A `predict_proba` output is a matrix of probabilities: every row is
non-empty with entries in `[0,1]`. -/
def probaValid (probas : List (List ℚ)) : Prop :=
  ∀ row ∈ probas, row ≠ [] ∧ ∀ x ∈ row, 0 ≤ x ∧ x ≤ 1

/-- A cached dense-embedding entry (as `train_model` would store for
`w2v_svm` after fitting on `["a"]`). -/
def entryW : CacheEntry ℕ :=
  { model := 7
    feature_type := "word_embeddings"
    tfidf_vec := none
    embedding_pipeline := some { n_components := 200, max_features := 20000,
                                 random_state := 42, corpus := ["a"] } }

/-- A cached sparse entry for `tfidf_svm`. -/
def entryT : CacheEntry ℕ :=
  { model := 3
    feature_type := "tfidf"
    tfidf_vec := some { max_features := 15000, corpus := ["a"] }
    embedding_pipeline := none }

/-- Module state with only the sparse entry trained. -/
def stT : PipelineState ℕ :=
  { tfidf_vectorizer := none, embedding_pipeline := none,
    trained_models := [("tfidf_svm", entryT)] }

/-- Module state with the sparse entry and the dense entry trained. -/
def stTW : PipelineState ℕ :=
  { tfidf_vectorizer := none, embedding_pipeline := none,
    trained_models := [("tfidf_svm", entryT), ("w2v_svm", entryW)] }

/-- Fresh route-level state. -/
def app0 : AppState ℕ := { pipeline := emptyPipelineState ℕ, comparison_results := [] }

/-! ## Theorems -/

section

/- The Batteries rational-number operations are `@[irreducible]`; witnesses
evaluate concrete pipeline runs by kernel reduction, which needs them
unfolded. -/
attribute [local semireducible] Rat.add Rat.sub Rat.mul Rat.inv


/-! ### Rounding and dict lemmas -/

theorem roundHalfEven_ge_floor (q : ℚ) : (⌊q⌋ : ℤ) ≤ roundHalfEven q := by
  unfold roundHalfEven
  dsimp only
  split
  · exact le_refl _
  · split
    · omega
    · split <;> omega

theorem roundHalfEven_le_ceil (q : ℚ) : roundHalfEven q ≤ ⌈q⌉ := by
  have hfc : (⌊q⌋ : ℤ) ≤ ⌈q⌉ := Int.floor_le_ceil q
  have hkey : ¬ (q - (⌊q⌋ : ℚ) < 1/2) → (⌊q⌋ : ℤ) + 1 ≤ ⌈q⌉ := by
    intro h
    have hlt : ((⌊q⌋ : ℤ) : ℚ) < q := by
      have : (1:ℚ)/2 ≤ q - (⌊q⌋ : ℚ) := le_of_not_lt h
      linarith
    have hq : q ≤ ((⌈q⌉ : ℤ) : ℚ) := Int.le_ceil q
    have : ((⌊q⌋ : ℤ) : ℚ) < ((⌈q⌉ : ℤ) : ℚ) := lt_of_lt_of_le hlt hq
    have : (⌊q⌋ : ℤ) < ⌈q⌉ := by exact_mod_cast this
    omega
  unfold roundHalfEven
  dsimp only
  split
  · exact hfc
  · next h =>
    have h1 := hkey h
    split
    · exact h1
    · split
      · exact hfc
      · exact h1

/-- Rounding keeps a value of `[0,1]` inside `[0,1]`. -/
theorem roundTo_mem_unit (n : ℕ) (q : ℚ) (h0 : 0 ≤ q) (h1 : q ≤ 1) :
    0 ≤ roundTo n q ∧ roundTo n q ≤ 1 := by
  have hpow : (0:ℚ) < 10 ^ n := by positivity
  have hq0 : (0:ℚ) ≤ q * 10 ^ n := by positivity
  constructor
  · have hfl0 : (0:ℤ) ≤ ⌊q * 10 ^ n⌋ := Int.floor_nonneg.mpr hq0
    have h := roundHalfEven_ge_floor (q * 10 ^ n)
    have hge : (0:ℤ) ≤ roundHalfEven (q * 10 ^ n) := le_trans hfl0 h
    unfold roundTo
    have : (0:ℚ) ≤ ((roundHalfEven (q * 10 ^ n) : ℤ) : ℚ) := by exact_mod_cast hge
    positivity
  · unfold roundTo
    rw [div_le_one hpow]
    have hle : q * 10 ^ n ≤ ((10:ℤ) ^ n : ℤ) := by push_cast; nlinarith
    have hceil : ⌈q * 10 ^ n⌉ ≤ (10:ℤ) ^ n := Int.ceil_le.mpr hle
    have h := roundHalfEven_le_ceil (q * 10 ^ n)
    have hfin : roundHalfEven (q * 10 ^ n) ≤ (10:ℤ) ^ n := le_trans h hceil
    calc ((roundHalfEven (q * 10 ^ n) : ℤ) : ℚ) ≤ (((10:ℤ) ^ n : ℤ) : ℚ) := by
          exact_mod_cast hfin
      _ = 10 ^ n := by push_cast; ring

theorem dictGet_dictSet_self {α : Type} (d : List (String × α)) (k : String) (v : α) :
    dictGet (dictSet d k v) k = some v := by
  induction d with
  | nil => simp [dictSet, dictGet]
  | cons p rest ih =>
    obtain ⟨k0, v0⟩ := p
    by_cases h : k0 = k <;> simp [dictSet, dictGet, h, ih]

theorem dictGet_dictSet_ne {α : Type} (d : List (String × α)) (k k' : String) (v : α)
    (h : k' ≠ k) : dictGet (dictSet d k v) k' = dictGet d k' := by
  have hk : ¬ (k = k') := fun hh => h (Eq.symm hh)
  induction d with
  | nil => simp [dictSet, dictGet, hk]
  | cons p rest ih =>
    obtain ⟨k0, v0⟩ := p
    by_cases h0 : k0 = k
    · subst h0
      simp [dictSet, dictGet, hk]
    · simp [dictSet, dictGet, h0, ih]

/-! ### Ranking lemmas -/

theorem mem_insertDesc (x a : RankedResult) (l : List RankedResult) :
    a ∈ insertDesc x l ↔ a = x ∨ a ∈ l := by
  induction l with
  | nil => simp [insertDesc]
  | cons y ys ih =>
    by_cases h : rankKey x < rankKey y
    · rw [insertDesc, if_pos h]
      rw [List.mem_cons, ih, List.mem_cons]
      tauto
    · rw [insertDesc, if_neg h]
      exact List.mem_cons

theorem insertDesc_perm (x : RankedResult) (l : List RankedResult) :
    List.Perm (insertDesc x l) (x :: l) := by
  induction l with
  | nil => simp [insertDesc]
  | cons y ys ih =>
    by_cases h : rankKey x < rankKey y
    · rw [insertDesc, if_pos h]
      exact List.Perm.trans (List.Perm.cons y ih) (List.Perm.swap x y ys)
    · rw [insertDesc, if_neg h]

theorem sortDesc_perm (l : List RankedResult) : List.Perm (sortDesc l) l := by
  induction l with
  | nil => simp [sortDesc]
  | cons x xs ih =>
    exact List.Perm.trans (insertDesc_perm x (sortDesc xs)) (List.Perm.cons x ih)

theorem insertDesc_pairwise (x : RankedResult) (l : List RankedResult)
    (h : List.Pairwise rankGE l) : List.Pairwise rankGE (insertDesc x l) := by
  induction l with
  | nil => simp [insertDesc, rankGE]
  | cons y ys ih =>
    rcases List.pairwise_cons.mp h with ⟨hy, hys⟩
    by_cases hc : rankKey x < rankKey y
    · rw [insertDesc, if_pos hc]
      refine List.pairwise_cons.mpr ⟨?_, ih hys⟩
      intro a ha
      rcases (mem_insertDesc x a ys).mp ha with rfl | ha'
      · exact le_of_lt hc
      · exact hy a ha'
    · rw [insertDesc, if_neg hc]
      refine List.pairwise_cons.mpr ⟨?_, h⟩
      intro a ha
      rcases List.mem_cons.mp ha with rfl | ha'
      · exact le_of_not_lt hc
      · exact le_trans (hy a ha') (le_of_not_lt hc)

theorem sortDesc_pairwise (l : List RankedResult) : List.Pairwise rankGE (sortDesc l) := by
  induction l with
  | nil => simp [sortDesc]
  | cons x xs ih => exact insertDesc_pairwise x (sortDesc xs) ih

/-- Stability of the insert: restricted to any single F1 value, inserting
puts the new element after no equal-key element (equal keys pass only if
strictly larger, which they are not). -/
theorem insertDesc_filter (v : ℚ) (x : RankedResult) (l : List RankedResult) :
    (insertDesc x l).filter (fun r => rankKey r == v) =
      if rankKey x = v then x :: l.filter (fun r => rankKey r == v)
      else l.filter (fun r => rankKey r == v) := by
  induction l with
  | nil =>
    by_cases hx : rankKey x = v <;> simp [insertDesc, List.filter_cons, hx]
  | cons y ys ih =>
    by_cases hc : rankKey x < rankKey y
    · rw [insertDesc, if_pos hc]
      by_cases hx : rankKey x = v
      · have hy : ¬ (rankKey y = v) := by
          intro hyv
          rw [hx, hyv] at hc
          exact lt_irrefl v hc
        simp [List.filter_cons, hx, hy, ih]
      · by_cases hy : rankKey y = v <;> simp [List.filter_cons, hx, hy, ih]
    · rw [insertDesc, if_neg hc]
      by_cases hx : rankKey x = v <;> by_cases hy : rankKey y = v <;>
        simp [List.filter_cons, hx, hy]

/-- Stability of the sort: restricted to any single F1 value, the sorted
list keeps the input order. -/
theorem sortDesc_filter (v : ℚ) (l : List RankedResult) :
    (sortDesc l).filter (fun r => rankKey r == v) = l.filter (fun r => rankKey r == v) := by
  induction l with
  | nil => rfl
  | cons x xs ih =>
    rw [sortDesc, insertDesc_filter]
    by_cases hx : rankKey x = v <;> simp [List.filter_cons, hx, ih]

/-- `record` preserves key uniqueness. -/
theorem record_nodup_keys (l : List RankedResult) (x : RankedResult)
    (h : (rankedKeys l).Nodup) : (rankedKeys (record l x)).Nodup := by
  have hperm : List.Perm (rankedKeys (record l x))
      (rankedKeys ((l.filter fun r => r.result.model_key != x.result.model_key) ++ [x])) :=
    List.Perm.map _ (sortDesc_perm _)
  refine hperm.nodup_iff.mpr ?_
  have hsub : (rankedKeys (l.filter fun r => r.result.model_key != x.result.model_key)).Nodup := by
    refine List.Nodup.sublist ?_ h
    exact List.Sublist.map _ (List.filter_sublist l)
  have hnot : x.result.model_key ∉
      rankedKeys (l.filter fun r => r.result.model_key != x.result.model_key) := by
    intro hmem
    rcases List.mem_map.mp hmem with ⟨r, hr, hkey⟩
    have := List.of_mem_filter hr
    rw [hkey] at this
    simp at this
  simp only [rankedKeys, List.map_append, List.map_cons, List.map_nil] at *
  rw [List.nodup_append]
  refine ⟨hsub, List.nodup_singleton _, ?_⟩
  intro a ha hb
  simp only [List.mem_singleton] at hb
  subst hb
  exact hnot ha

/-! ### Structural facts about `trainModel` -/

/-- Anatomy of a training call: either some stage failed — and then the
trained-model cache is exactly what it was — or every stage succeeded and
the call returned the packaged metrics and wrote the one cache entry for
this key (classifier just fit, feature tag, and the extractor fit on this
call's training documents). -/
theorem trainModel_spec {FC : Type} (B : Backend FC) (ck : Clock) (st : PipelineState FC)
    (k : String) (Xtr Xte : List String) (ytr yte : List ℕ) :
    ((trainModel B ck st k Xtr Xte ytr yte).1.isOk = false ∧
      (trainModel B ck st k Xtr Xte ytr yte).2.trained_models = st.trained_models) ∨
    (∃ config x_train_vec x_test_vec spec clf y_pred confidence,
      List.lookup k MODEL_CONFIGS = some config ∧
      (if config.feature = "tfidf" then buildTfidf B st Xtr Xte
        else buildWordEmbeddings B st Xtr Xte).1 = .ok (x_train_vec, x_test_vec) ∧
      createClassifier config.classifier config.feature = .ok spec ∧
      B.fitClf spec x_train_vec ytr = .ok clf ∧
      B.clfPredict clf x_test_vec = .ok y_pred ∧
      (B.hasPredictProba clf = true →
        ∃ probas, B.clfPredictProba clf x_test_vec = .ok probas ∧
          confidence = some (meanQ (probas.map listMaxQ))) ∧
      (B.hasPredictProba clf = false → confidence = none) ∧
      (trainModel B ck st k Xtr Xte ytr yte).1 =
        .ok (scoreAndPackage k config (ck.featEnd - ck.featStart)
          (ck.trainEnd - ck.trainStart) (ck.predEnd - ck.predStart)
          yte y_pred confidence ytr.length yte.length) ∧
      (trainModel B ck st k Xtr Xte ytr yte).2.trained_models =
        dictSet st.trained_models k
          { model := clf
            feature_type := config.feature
            tfidf_vec := if config.feature = "tfidf" then some ⟨15000, Xtr⟩ else none
            embedding_pipeline :=
              if config.feature = "word_embeddings" then some ⟨200, 20000, 42, Xtr⟩
              else none }) := by
  rcases hl : List.lookup k MODEL_CONFIGS with _ | config
  · left
    constructor <;> simp [trainModel, hl, Except.isOk, Except.toBool]
  · rcases hb : (if config.feature = "tfidf" then buildTfidf B st Xtr Xte
        else buildWordEmbeddings B st Xtr Xte) with ⟨fe, st'⟩
    have hst' : st'.trained_models = st.trained_models := by
      have h2 := congrArg (fun p => p.2.trained_models) hb
      simp only at h2
      rw [← h2]
      by_cases hf : config.feature = "tfidf" <;>
        simp [hf, buildTfidf, buildWordEmbeddings]
    rcases fe with e | ⟨xtr, xte⟩
    · left
      constructor <;> simp [trainModel, hl, hb, Except.isOk, Except.toBool, hst']
    · rcases hc : createClassifier config.classifier config.feature with e | spec
      · left
        constructor <;> simp [trainModel, hl, hb, hc, Except.isOk, Except.toBool, hst']
      · rcases hfit : B.fitClf spec xtr ytr with e | clf
        · left
          constructor <;> simp [trainModel, hl, hb, hc, hfit, Except.isOk, Except.toBool, hst']
        · rcases hp : B.clfPredict clf xte with e | y_pred
          · left
            constructor <;>
              simp [trainModel, hl, hb, hc, hfit, hp, Except.isOk, Except.toBool, hst']
          · have hvec : if config.feature = "tfidf" then st'.tfidf_vectorizer = some ⟨15000, Xtr⟩
                else st'.embedding_pipeline = some ⟨200, 20000, 42, Xtr⟩ := by
              have h2 := congrArg Prod.snd hb
              simp only at h2
              by_cases hf : config.feature = "tfidf"
              · rw [if_pos hf] at h2
                rw [if_pos hf, ← h2]
                simp [buildTfidf]
              · rw [if_neg hf] at h2
                rw [if_neg hf, ← h2]
                simp [buildWordEmbeddings]
            cases hpp : B.hasPredictProba clf
            · right
              refine ⟨config, xtr, xte, spec, clf, y_pred, none,
                ?_, ?_, ?_, ?_, ?_, ?_, ?_, ?_, ?_⟩
              · rfl
              · rw [hb]
              · exact hc
              · exact hfit
              · exact hp
              · simp [hpp]
              · intro _
                rfl
              · simp [trainModel, hl, hb, hc, hfit, hp, hpp]
              · simp only [trainModel, hl, hb, hc, hfit, hp, hpp]
                rw [hst']
                by_cases hf : config.feature = "tfidf"
                · rw [if_pos hf] at hvec
                  simp [hf, hvec]
                · rw [if_neg hf] at hvec
                  simp [hf, hvec]
            · rcases hprob : B.clfPredictProba clf xte with e | probas
              · left
                constructor <;>
                  simp [trainModel, hl, hb, hc, hfit, hp, hpp, hprob, Except.isOk,
                    Except.toBool, hst']
              · right
                refine ⟨config, xtr, xte, spec, clf, y_pred,
                  some (meanQ (probas.map listMaxQ)),
                  ?_, ?_, ?_, ?_, ?_, ?_, ?_, ?_, ?_⟩
                · rfl
                · rw [hb]
                · exact hc
                · exact hfit
                · exact hp
                · intro _
                  exact ⟨probas, hprob, rfl⟩
                · simp [hpp]
                · simp [trainModel, hl, hb, hc, hfit, hp, hpp, hprob]
                · simp only [trainModel, hl, hb, hc, hfit, hp, hpp, hprob]
                  rw [hst']
                  by_cases hf : config.feature = "tfidf"
                  · rw [if_pos hf] at hvec
                    simp [hf, hvec]
                  · rw [if_neg hf] at hvec
                    simp [hf, hvec]

/-- The non-timing fields of the packaged result do not depend on the
stage times. -/
theorem stripTiming_scoreAndPackage (k : String) (config : ModelConfig)
    (ft tt pt ft' tt' pt' : ℚ) (yte yp : List ℕ) (conf : Option ℚ) (a b : ℕ) :
    stripTiming (scoreAndPackage k config ft tt pt yte yp conf a b) =
      stripTiming (scoreAndPackage k config ft' tt' pt' yte yp conf a b) := rfl

/-- Two training calls that differ only in the clock readings agree on
everything except the timing fields (and on the resulting module state's
cache, which records no times). -/
theorem trainModel_clock_irrelevant {FC : Type} (B : Backend FC) (ck ck' : Clock)
    (st : PipelineState FC) (k : String) (Xtr Xte : List String) (ytr yte : List ℕ) :
    (trainModel B ck st k Xtr Xte ytr yte).1.map stripTiming =
      (trainModel B ck' st k Xtr Xte ytr yte).1.map stripTiming ∧
    (trainModel B ck st k Xtr Xte ytr yte).2 =
      (trainModel B ck' st k Xtr Xte ytr yte).2 := by
  rcases hl : List.lookup k MODEL_CONFIGS with _ | config
  · constructor <;> simp [trainModel, hl]
  · rcases hb : (if config.feature = "tfidf" then buildTfidf B st Xtr Xte
        else buildWordEmbeddings B st Xtr Xte) with ⟨fe, st'⟩
    rcases fe with e | ⟨xtr, xte⟩
    · constructor <;> simp [trainModel, hl, hb]
    · rcases hc : createClassifier config.classifier config.feature with e | spec
      · constructor <;> simp [trainModel, hl, hb, hc]
      · rcases hfit : B.fitClf spec xtr ytr with e | clf
        · constructor <;> simp [trainModel, hl, hb, hc, hfit]
        · rcases hp : B.clfPredict clf xte with e | y_pred
          · constructor <;> simp [trainModel, hl, hb, hc, hfit, hp]
          · cases hpp : B.hasPredictProba clf
            · constructor
              · simp only [trainModel, hl, hb, hc, hfit, hp, hpp, Except.map]
                exact congrArg Except.ok (stripTiming_scoreAndPackage k config
                  (ck.featEnd - ck.featStart) (ck.trainEnd - ck.trainStart)
                  (ck.predEnd - ck.predStart) (ck'.featEnd - ck'.featStart)
                  (ck'.trainEnd - ck'.trainStart) (ck'.predEnd - ck'.predStart)
                  yte y_pred none ytr.length yte.length)
              · simp [trainModel, hl, hb, hc, hfit, hp, hpp]
            · rcases hprob : B.clfPredictProba clf xte with e | probas
              · constructor <;> simp [trainModel, hl, hb, hc, hfit, hp, hpp, hprob]
              · constructor
                · simp only [trainModel, hl, hb, hc, hfit, hp, hpp, hprob, Except.map]
                  exact congrArg Except.ok (stripTiming_scoreAndPackage k config
                    (ck.featEnd - ck.featStart) (ck.trainEnd - ck.trainStart)
                    (ck.predEnd - ck.predStart) (ck'.featEnd - ck'.featStart)
                    (ck'.trainEnd - ck'.trainStart) (ck'.predEnd - ck'.predStart)
                    yte y_pred (some (meanQ (probas.map listMaxQ))) ytr.length yte.length)
                · simp [trainModel, hl, hb, hc, hfit, hp, hpp, hprob]

/-! ### Bounds on the scores -/

theorem ratio_mem_unit (a b : ℕ) (h : a ≤ b) :
    0 ≤ (a : ℚ) / (b : ℚ) ∧ (a : ℚ) / (b : ℚ) ≤ 1 := by
  rcases Nat.eq_zero_or_pos b with hb | hb
  · subst hb
    have : a = 0 := Nat.le_zero.mp h
    subst this
    norm_num
  · have hbq : (0:ℚ) < (b : ℚ) := by exact_mod_cast hb
    constructor
    · positivity
    · rw [div_le_one hbq]
      exact_mod_cast h

theorem countAgree_le_length (y_true y_pred : List ℕ) :
    countAgree y_true y_pred ≤ y_true.length := by
  calc countAgree y_true y_pred ≤ (y_true.zip y_pred).length :=
        List.length_filter_le _ _
    _ ≤ y_true.length := by
        rw [List.length_zip]
        exact Nat.min_le_left _ _

theorem accuracyScore_mem_unit (y_true y_pred : List ℕ) :
    0 ≤ accuracyScore y_true y_pred ∧ accuracyScore y_true y_pred ≤ 1 :=
  ratio_mem_unit _ _ (countAgree_le_length y_true y_pred)

theorem precisionScore_mem_unit (y_true y_pred : List ℕ) :
    0 ≤ precisionScore y_true y_pred ∧ precisionScore y_true y_pred ≤ 1 := by
  unfold precisionScore
  dsimp only
  split
  · norm_num
  · have h := ratio_mem_unit (countTP2 y_true y_pred 1 1)
      (countTP2 y_true y_pred 1 1 + countTP2 y_true y_pred 0 1) (Nat.le_add_right _ _)
    rwa [Nat.cast_add] at h

theorem recallScore_mem_unit (y_true y_pred : List ℕ) :
    0 ≤ recallScore y_true y_pred ∧ recallScore y_true y_pred ≤ 1 := by
  unfold recallScore
  dsimp only
  split
  · norm_num
  · have h := ratio_mem_unit (countTP2 y_true y_pred 1 1)
      (countTP2 y_true y_pred 1 1 + countTP2 y_true y_pred 1 0) (Nat.le_add_right _ _)
    rwa [Nat.cast_add] at h

/-- The harmonic combination of two unit-interval values stays in `[0,1]`. -/
theorem f1Combine_mem_unit (p r : ℚ) (hp0 : 0 ≤ p) (hp1 : p ≤ 1) (hr0 : 0 ≤ r) (hr1 : r ≤ 1) :
    0 ≤ (if p + r = 0 then (0:ℚ) else 2 * p * r / (p + r)) ∧
      (if p + r = 0 then (0:ℚ) else 2 * p * r / (p + r)) ≤ 1 := by
  split
  · norm_num
  · next hne =>
    have hsum : 0 < p + r := lt_of_le_of_ne (by linarith) (Ne.symm hne)
    constructor
    · positivity
    · rw [div_le_one hsum]
      nlinarith

theorem f1Score_mem_unit (y_true y_pred : List ℕ) :
    0 ≤ f1Score y_true y_pred ∧ f1Score y_true y_pred ≤ 1 := by
  have hp := precisionScore_mem_unit y_true y_pred
  have hr := recallScore_mem_unit y_true y_pred
  exact f1Combine_mem_unit _ _ hp.1 hp.2 hr.1 hr.2

theorem foldl_max_mem_unit (xs : List ℚ) (x : ℚ) (hx0 : 0 ≤ x) (hx1 : x ≤ 1)
    (hxs : ∀ y ∈ xs, 0 ≤ y ∧ y ≤ 1) :
    0 ≤ xs.foldl max x ∧ xs.foldl max x ≤ 1 := by
  induction xs generalizing x with
  | nil => exact ⟨hx0, hx1⟩
  | cons y ys ih =>
    have hy := hxs y (List.mem_cons_self y ys)
    refine ih (max x y) (le_trans hx0 (le_max_left x y)) (max_le hx1 hy.2) ?_
    intro z hz
    exact hxs z (List.mem_cons_of_mem y hz)

theorem listMaxQ_mem_unit (row : List ℚ) (hne : row ≠ [])
    (hrow : ∀ x ∈ row, 0 ≤ x ∧ x ≤ 1) :
    0 ≤ listMaxQ row ∧ listMaxQ row ≤ 1 := by
  cases row with
  | nil => exact absurd rfl hne
  | cons x xs =>
    have hx := hrow x (List.mem_cons_self x xs)
    exact foldl_max_mem_unit xs x hx.1 hx.2
      fun y hy => hrow y (List.mem_cons_of_mem x hy)

theorem meanQ_mem_unit (l : List ℚ) (h : ∀ x ∈ l, 0 ≤ x ∧ x ≤ 1) :
    0 ≤ meanQ l ∧ meanQ l ≤ 1 := by
  have hsum0 : 0 ≤ l.sum := List.sum_nonneg fun x hx => (h x hx).1
  have hsum1 : l.sum ≤ (l.length : ℚ) := by
    have := List.sum_le_card_nsmul l 1 fun x hx => (h x hx).2
    simpa [nsmul_eq_mul] using this
  rcases List.eq_nil_or_concat l with rfl | _
  · simp [meanQ]
  · have hlen : (0:ℚ) < l.length := by
      rcases l with _ | ⟨a, as⟩
      · simp_all
      · exact_mod_cast Nat.succ_pos as.length
    unfold meanQ
    constructor
    · positivity
    · rw [div_le_one hlen]
      exact hsum1

/-- A well-formed probability matrix yields an average max-probability in
`[0,1]`. -/
theorem confidence_mem_unit (probas : List (List ℚ)) (h : probaValid probas) :
    0 ≤ meanQ (probas.map listMaxQ) ∧ meanQ (probas.map listMaxQ) ≤ 1 := by
  refine meanQ_mem_unit _ ?_
  intro x hx
  rcases List.mem_map.mp hx with ⟨row, hrow, rfl⟩
  exact listMaxQ_mem_unit row (h row hrow).1 (h row hrow).2

/-! ### Out-of-vocabulary transforms -/

theorem countVector_oov (vocab : List String) (doc : String)
    (h : ∀ t ∈ ngrams12 (sklearnTokens doc), t ∉ vocab) :
    countVector vocab doc = List.replicate vocab.length 0 := by
  induction vocab with
  | nil => rfl
  | cons t ts ih =>
    have ht : docTermCount doc t = 0 := by
      unfold docTermCount
      rw [List.count_eq_zero]
      intro hmem
      exact h t hmem (List.mem_cons_self t ts)
    have hts : ∀ u ∈ ngrams12 (sklearnTokens doc), u ∉ ts := by
      intro u hu hmem
      exact h u hu (List.mem_cons_of_mem t hmem)
    calc countVector (t :: ts) doc = docTermCount doc t :: countVector ts doc := rfl
      _ = 0 :: List.replicate ts.length 0 := by rw [ht, ih hts]
      _ = List.replicate (t :: ts).length 0 := rfl

theorem zipWith_tfWeight_replicate_zero (qlog : ℕ → ℚ) :
    ∀ (n : ℕ) (idf : List ℚ),
      List.zipWith (fun tf w => if tf = 0 then (0:ℚ) else (1 + qlog tf) * w)
        (List.replicate n 0) idf = List.replicate (min n idf.length) 0 := by
  intro n
  induction n with
  | zero => intro idf; simp
  | succ m ih =>
    intro idf
    cases idf with
    | nil => simp
    | cons w ws =>
      simp only [List.replicate_succ, List.zipWith_cons_cons, List.length_cons, if_pos rfl]
      rw [ih ws]
      rw [Nat.succ_min_succ]
      rfl

theorem dotQ_replicate_zero : ∀ (n : ℕ) (v : List ℚ), dotQ (List.replicate n 0) v = 0 := by
  intro n
  induction n with
  | zero => intro v; simp [dotQ]
  | succ m ih =>
    intro v
    cases v with
    | nil => simp [dotQ]
    | cons b bs =>
      simp only [List.replicate_succ, dotQ, List.zipWith_cons_cons, List.sum_cons, zero_mul]
      have := ih bs
      unfold dotQ at this
      rw [this]
      ring

theorem l2normZeroAware_replicate_zero (nz : List ℚ → List ℚ) (n : ℕ) :
    l2normZeroAware nz (List.replicate n 0) = List.replicate n 0 := by
  unfold l2normZeroAware
  rw [if_pos]
  rw [List.all_eq_true]
  intro x hx
  have := List.eq_of_mem_replicate hx
  simp [this]

theorem l2normZeroAware_length (nz : List ℚ → List ℚ) (v : List ℚ)
    (hnz : ∀ w, (nz w).length = w.length) :
    (l2normZeroAware nz v).length = v.length := by
  unfold l2normZeroAware
  split
  · rfl
  · exact hnz v

/-! ### Claim C2 — ranking invariant -/

/-- C2: after every sequence of `record` calls (possibly repeating model
identities) the comparison result set has at most one entry per identity
(its keys are duplicate-free), is sorted non-increasing by F1 score, each
`record` is stable (restricted to any single F1 value it preserves the
order of the filtered-plus-appended input, so ties keep training order),
and the best result is the first element, or none when the set is empty. -/
theorem C2_ranking_invariant :
    (∀ xs : List RankedResult,
      (rankedKeys (xs.foldl record [])).Nodup ∧
      List.Pairwise rankGE (xs.foldl record [])) ∧
    (∀ (results : List RankedResult) (x : RankedResult) (v : ℚ),
      (record results x).filter (fun r => rankKey r == v) =
        ((results.filter fun r => r.result.model_key != x.result.model_key) ++ [x]).filter
          (fun r => rankKey r == v)) ∧
    (∀ results : List RankedResult, bestResult results = results.head?) := by
  refine ⟨?_, ?_, ?_⟩
  · intro xs
    have main : ∀ (ys cr : List RankedResult),
        (rankedKeys cr).Nodup → List.Pairwise rankGE cr →
        (rankedKeys (ys.foldl record cr)).Nodup ∧
          List.Pairwise rankGE (ys.foldl record cr) := by
      intro ys
      induction ys with
      | nil => intro cr h1 h2; exact ⟨h1, h2⟩
      | cons x xs ih =>
        intro cr h1 _
        exact ih (record cr x) (record_nodup_keys cr x h1) (sortDesc_pairwise _)
    exact main xs [] (by simp [rankedKeys]) (by simp)
  · intro results x v
    exact sortDesc_filter v _
  · intro results
    rfl

/-! ### Claim C7 — cache isolation -/

/-- C7: training identity `A` never mutates any other identity's cache
entry — after the call, the entry stored under any `other ≠ A` (classifier,
feature tag and fitted extractor alike) is exactly the entry that was there
before, whether the call succeeded or failed. -/
theorem C7_cache_isolation {FC : Type} (B : Backend FC) (ck : Clock)
    (st : PipelineState FC) (A other : String) (Xtr Xte : List String)
    (ytr yte : List ℕ) (h : other ≠ A) :
    dictGet (trainModel B ck st A Xtr Xte ytr yte).2.trained_models other =
      dictGet st.trained_models other := by
  rcases trainModel_spec B ck st A Xtr Xte ytr yte with ⟨_, hcache⟩ |
    ⟨_, _, _, _, _, _, _, _, _, _, _, _, _, _, _, hcache⟩
  · rw [hcache]
  · rw [hcache]
    exact dictGet_dictSet_ne _ _ _ _ h

/-- C7 witness: training `tfidf_svm` on a state that already holds a
`w2v_svm` entry leaves that entry exactly in place. -/
theorem C7_cache_isolation_witness :
    ("w2v_svm" ≠ "tfidf_svm") ∧
    dictGet (trainModel B0 ck0 stTW "tfidf_svm" Xtr0 Xte0 ytr0 yte0).2.trained_models
        "w2v_svm" = some entryW := by
  constructor
  · decide
  · rw [C7_cache_isolation B0 ck0 stTW "tfidf_svm" "w2v_svm" Xtr0 Xte0 ytr0 yte0
      (by decide)]
    rfl

/-! ### Claim C5 — determinism given a fixed seed -/

/-- C5 (amended): with the seeds fixed in the source (`random_state=42`
everywhere), two training calls with identical inputs agree on every field
of the Metrics Bundle *except* the timing breakdown — metrics, confusion
matrix, confidence, names and sample counts are bit-identical; the timing
fields are wall-clock measurements and depend on the clock readings of the
particular run. -/
theorem C5_deterministic_except_timing {FC : Type} (B : Backend FC) (ck ck' : Clock)
    (st : PipelineState FC) (k : String) (Xtr Xte : List String) (ytr yte : List ℕ)
    (r r' : TrainResult)
    (h : (trainModel B ck st k Xtr Xte ytr yte).1 = .ok r)
    (h' : (trainModel B ck' st k Xtr Xte ytr yte).1 = .ok r') :
    stripTiming r = stripTiming r' ∧
    r.metrics = r'.metrics ∧
    r.confusion_matrix = r'.confusion_matrix ∧
    r.avg_confidence = r'.avg_confidence := by
  have hmap := (trainModel_clock_irrelevant B ck ck' st k Xtr Xte ytr yte).1
  rw [h, h'] at hmap
  simp only [Except.map] at hmap
  have hstrip : stripTiming r = stripTiming r' := by
    exact Except.ok.inj hmap
  refine ⟨hstrip, ?_, ?_, ?_⟩
  · have hm := congrArg TrainResult.metrics hstrip
    exact hm
  · have hc := congrArg TrainResult.confusion_matrix hstrip
    exact hc
  · have ha := congrArg TrainResult.avg_confidence hstrip
    exact ha

/-- C5 witness: two concrete runs of `tfidf_svm` under different clocks
agree on everything but timing. -/
theorem C5_deterministic_except_timing_witness :
    ∃ r r', (trainModel B0 ck0 (emptyPipelineState ℕ) "tfidf_svm" Xtr0 Xte0 ytr0 yte0).1 =
        .ok r ∧
      (trainModel B0 ck1 (emptyPipelineState ℕ) "tfidf_svm" Xtr0 Xte0 ytr0 yte0).1 =
        .ok r' ∧
      stripTiming r = stripTiming r' := by
  refine ⟨_, _, rfl, rfl, ?_⟩
  exact (C5_deterministic_except_timing B0 ck0 ck1 (emptyPipelineState ℕ) "tfidf_svm"
    Xtr0 Xte0 ytr0 yte0 _ _ rfl rfl).1

/-- C5 counterexample: the claim as stated — bit-identical bundles
*including the timing breakdown* — is false: the same training call
performed under two different clocks returns different bundles (their
timing fields differ). -/
theorem C5_counterexample :
    (trainModel B0 ck0 (emptyPipelineState ℕ) "tfidf_svm" Xtr0 Xte0 ytr0 yte0).1.toOption ≠
      (trainModel B0 ck1 (emptyPipelineState ℕ) "tfidf_svm" Xtr0 Xte0 ytr0 yte0).1.toOption := by
  decide


/-! ### Claim C1 — stage failure aborts without partial writes -/

/-- C1 (amended): if any stage of a training call fails, the `/train`
endpoint aborts with a bare HTTP 500 error carrying only the underlying
exception's message — there is no `EvaluationError` wrapper and no stage
name in the surfaced error — and nothing is written to the Cache or the
Ranking: the trained-model dict (in particular the previous entry for that
identity, if any) and the comparison results are exactly what they were
before the call. -/
theorem C1_failure_no_partial_writes {FC : Type} (B : Backend FC) (ck : Clock)
    (app : AppState FC) (k did : String) (Xtr Xte : List String) (ytr yte : List ℕ)
    (e : PyErr)
    (hkey : (MODEL_CONFIGS.any fun p => p.1 == k) = true)
    (hfail : (trainModel B ck app.pipeline k Xtr Xte ytr yte).1 = .error e) :
    (trainEndpoint B ck app k did (.ok (Xtr, Xte, ytr, yte))).1 = .error ⟨500, e.msg⟩ ∧
    (trainEndpoint B ck app k did (.ok (Xtr, Xte, ytr, yte))).2.comparison_results =
      app.comparison_results ∧
    (trainEndpoint B ck app k did (.ok (Xtr, Xte, ytr, yte))).2.pipeline.trained_models =
      app.pipeline.trained_models := by
  have hcache : (trainModel B ck app.pipeline k Xtr Xte ytr yte).2.trained_models =
      app.pipeline.trained_models := by
    rcases trainModel_spec B ck app.pipeline k Xtr Xte ytr yte with ⟨_, hc⟩ |
      ⟨_, _, _, _, _, _, _, _, _, _, _, _, _, _, hres, _⟩
    · exact hc
    · rw [hfail] at hres
      simp at hres
  rcases ht : trainModel B ck app.pipeline k Xtr Xte ytr yte with ⟨res, st'⟩
  rw [ht] at hfail hcache
  dsimp only at hfail hcache
  unfold trainEndpoint
  rw [if_neg fun hcon => hcon hkey]
  dsimp only
  rw [ht]
  subst hfail
  exact ⟨rfl, rfl, hcache⟩

/-- C1 witness: a backend whose feature extraction raises `"boom"` on a
valid model key makes the endpoint fail with 500/"boom" while the cache
and ranking are untouched. -/
theorem C1_failure_no_partial_writes_witness :
    ((MODEL_CONFIGS.any fun p => p.1 == "tfidf_svm") = true) ∧
    ((trainModel BFail ck0 app0.pipeline "tfidf_svm" Xtr0 Xte0 ytr0 yte0).1 =
      .error ⟨false, "boom"⟩) ∧
    ((trainEndpoint BFail ck0 app0 "tfidf_svm" "combined"
        (.ok (Xtr0, Xte0, ytr0, yte0))).1 = .error ⟨500, "boom"⟩ ∧
      (trainEndpoint BFail ck0 app0 "tfidf_svm" "combined"
        (.ok (Xtr0, Xte0, ytr0, yte0))).2.comparison_results = app0.comparison_results ∧
      (trainEndpoint BFail ck0 app0 "tfidf_svm" "combined"
        (.ok (Xtr0, Xte0, ytr0, yte0))).2.pipeline.trained_models =
          app0.pipeline.trained_models) :=
  ⟨by decide, by decide,
    C1_failure_no_partial_writes BFail ck0 app0 "tfidf_svm" "combined"
      Xtr0 Xte0 ytr0 yte0 ⟨false, "boom"⟩ (by decide) (by decide)⟩

/-- C1 counterexample (to the claim as stated): when feature extraction
fails with cause `"boom"`, the error the caller sees is a plain 500 whose
detail is exactly the cause message; it wraps no stage name — the detail
mentions neither "feature" nor "extract" (nor any `EvaluationError`
marker), so the claim's "EvaluationError wrapping the stage name" does not
hold of this program. -/
theorem C1_counterexample :
    (trainEndpoint BFail ck0 app0 "tfidf_svm" "combined"
        (.ok (Xtr0, Xte0, ytr0, yte0))).1 = .error ⟨500, "boom"⟩ ∧
    strContains "boom" "feature" = false ∧
    strContains "boom" "extract" = false ∧
    strContains "boom" "Evaluation" = false := by
  refine ⟨?_, by decide, by decide, by decide⟩
  decide


/-! ### Claim C3 — prediction on an untrained identity -/

/-- C3 (amended): predicting on an identity with no cache entry fails with
the `ValueError` "Model '…' is not trained yet. Train it first.", surfaced
by the `/predict` endpoint as HTTP 400, and the module state — in
particular the cache — is returned untouched (as on every predict path).
The error is, however, not distinguishable from other caller errors by
kind alone: the status, the only machine-readable kind, is the same 400
used for empty input, so callers must parse messages. -/
theorem C3_not_trained_error {FC : Type} (B : Backend FC) (app : AppState FC)
    (text model_key : String)
    (hne : ¬ (pyStrip text = ""))
    (huntrained : dictGet app.pipeline.trained_models model_key = none) :
    (predictEndpoint B app text model_key).1 =
      .error ⟨400, "Model '" ++ model_key ++ "' is not trained yet. Train it first."⟩ ∧
    (predictEndpoint B app text model_key).2 = app ∧
    (∀ (B' : Backend FC) (app' : AppState FC) (t mk : String),
      (predictEndpoint B' app' t mk).2 = app') := by
  refine ⟨?_, ?_, ?_⟩
  · unfold predictEndpoint
    rw [if_neg hne]
    unfold predictText
    rw [huntrained]
    rfl
  · unfold predictEndpoint
    rw [if_neg hne]
    unfold predictText
    rw [huntrained]
  · intro B' app' t mk
    unfold predictEndpoint
    by_cases h : pyStrip t = ""
    · rw [if_pos h]
    · rw [if_neg h]
      dsimp only
      rcases hpt : predictText B' app'.pipeline mk (clean_text t) with e | r <;>
        rfl

/-- C3 witness: on a fresh cache, predicting "hello" with `w2v_svm` yields
the 400 not-trained error and the state is unchanged. -/
theorem C3_not_trained_error_witness :
    (¬ (pyStrip "hello" = "")) ∧
    dictGet app0.pipeline.trained_models "w2v_svm" = none ∧
    ((predictEndpoint B0 app0 "hello" "w2v_svm").1 =
        .error ⟨400, "Model 'w2v_svm' is not trained yet. Train it first."⟩ ∧
      (predictEndpoint B0 app0 "hello" "w2v_svm").2 = app0 ∧
      (∀ (B' : Backend ℕ) (app' : AppState ℕ) (t mk : String),
        (predictEndpoint B' app' t mk).2 = app')) :=
  ⟨by decide, by decide,
    C3_not_trained_error B0 app0 "hello" "w2v_svm" (by decide) (by decide)⟩

/-- C3 counterexample (to "distinguishable by kind, not by message
parsing"): the not-trained error and the empty-input error are both
surfaced with status 400 — the only machine-readable kind — and differ
only in their detail strings. -/
theorem C3_counterexample :
    (predictEndpoint B0 app0 "hello" "w2v_svm").1 =
      .error ⟨400, "Model 'w2v_svm' is not trained yet. Train it first."⟩ ∧
    (predictEndpoint B0 app0 "   " "w2v_svm").1 = .error ⟨400, "Text cannot be empty"⟩ ∧
    (HttpError.mk 400 "Model 'w2v_svm' is not trained yet. Train it first.").status =
      (HttpError.mk 400 "Text cannot be empty").status ∧
    ¬ ((HttpError.mk 400 "Model 'w2v_svm' is not trained yet. Train it first.").detail =
      (HttpError.mk 400 "Text cannot be empty").detail) := by
  refine ⟨by decide, by decide, rfl, by decide⟩

/-! ### Claim C4 — confidence: mean of max probabilities, or absent -/

/-- C4 (amended): when the classifier exposes probability output the
computed average confidence is the mean over test samples of the maximum
predicted class probability, and when it does not the confidence is
absent; the reported value, however, passes through the Python truthiness
guard `round(c, 4) if c else None`, which reports a computed confidence of
exactly `0` as absent rather than `0.0` — absence and `0.0` are therefore
not distinguishable in the report.  The same rule applies to the
single-prediction confidence (maximum probability of the single row). -/
theorem C4_confidence_rule :
    (∀ (FC : Type) (B : Backend FC) (ck : Clock) (st : PipelineState FC) (k : String)
        (Xtr Xte : List String) (ytr yte : List ℕ) (r : TrainResult),
      (trainModel B ck st k Xtr Xte ytr yte).1 = .ok r →
      ∃ clf xtev conf,
        (B.hasPredictProba clf = false → conf = none) ∧
        (B.hasPredictProba clf = true →
          ∃ probas, B.clfPredictProba clf xtev = .ok probas ∧
            conf = some (meanQ (probas.map listMaxQ))) ∧
        r.avg_confidence = pyTruthyRound4 conf) ∧
    (∀ (FC : Type) (B : Backend FC) (k text : String) (cached : CacheEntry FC)
        (r : PredictResult),
      predictFromEntry B k cached text = .ok r →
      (B.hasPredictProba cached.model = false → r.confidence = none) ∧
      (B.hasPredictProba cached.model = true →
        ∃ vec row rest, B.clfPredictProba cached.model vec = .ok (row :: rest) ∧
          r.confidence = pyTruthyRound4 (some (listMaxQ row)))) ∧
    pyTruthyRound4 (some 0) = none ∧
    pyTruthyRound4 none = none ∧
    (∀ q : ℚ, q ≠ 0 → pyTruthyRound4 (some q) = some (roundTo 4 q)) := by
  refine ⟨?_, ?_, rfl, rfl, ?_⟩
  · intro FC B ck st k Xtr Xte ytr yte r h
    rcases trainModel_spec B ck st k Xtr Xte ytr yte with ⟨hok, _⟩ |
      ⟨config, xtrv, xtev, spc, clf, y_pred, conf, _, _, _, _, _, htrue, hfalse, hres, _⟩
    · rw [h] at hok
      simp [Except.isOk, Except.toBool] at hok
    · refine ⟨clf, xtev, conf, hfalse, htrue, ?_⟩
      rw [h] at hres
      have hr := Except.ok.inj hres
      rw [hr]
      rfl
  · intro FC B k text cached r h
    unfold predictFromEntry at h
    split at h
    · simp at h
    · next vec hvec =>
      split at h
      · simp at h
      · simp at h
      · next prediction rest2 hpred =>
        split at h
        · simp at h
        · next confidence heq =>
          have hr := Except.ok.inj h
          subst hr
          constructor
          · intro hpp
            rw [if_neg (by simp [hpp])] at heq
            have hc := Except.ok.inj heq
            dsimp only
            rw [← hc]
            rfl
          · intro hpp
            rw [if_pos hpp] at heq
            split at heq
            · simp at heq
            · simp at heq
            · simp at heq
            · next row rest hne2 hprob =>
              refine ⟨vec, row, rest, hprob, ?_⟩
              have hc := Except.ok.inj heq
              dsimp only
              rw [← hc]
  · intro q hq
    simp [pyTruthyRound4, hq]

/-- C4 witness: a concrete successful run instantiating the train-side
confidence rule. -/
theorem C4_confidence_rule_witness :
    ∃ r, (trainModel B0 ck0 (emptyPipelineState ℕ) "tfidf_svm" Xtr0 Xte0 ytr0 yte0).1 =
        .ok r ∧
      ∃ clf xtev conf,
        (B0.hasPredictProba clf = false → conf = none) ∧
        (B0.hasPredictProba clf = true →
          ∃ probas, B0.clfPredictProba clf xtev = .ok probas ∧
            conf = some (meanQ (probas.map listMaxQ))) ∧
        r.avg_confidence = pyTruthyRound4 conf := by
  refine ⟨_, rfl, ?_⟩
  exact C4_confidence_rule.1 ℕ B0 ck0 (emptyPipelineState ℕ) "tfidf_svm"
    Xtr0 Xte0 ytr0 yte0 _ rfl

/-- C4 counterexample (to "a legitimately computed confidence of 0.0 is
reported as 0.0, never as absent"): with probability rows `[0, 0]` the
computed mean-of-max confidence is exactly `0`, and the returned bundle
reports `avg_confidence = none` — the `0.0` is reported as absent. -/
theorem C4_counterexample :
    (trainModel BZero ck0 (emptyPipelineState ℕ) "tfidf_svm" Xtr0 Xte0 ytr0 yte0).1.map
        (fun r => r.avg_confidence) = .ok none ∧
    meanQ ([[0, 0]].map listMaxQ) = 0 ∧
    BZero.hasPredictProba 0 = true := by
  refine ⟨by decide, by decide, rfl⟩


/-! ### Claim C6 — the dense projection is fit once and reused -/

/-- C6: for a dense-semantic (word-embeddings) training call, the fitted
projection pipeline stored in the cache is the one fit on exactly this
call's training documents (`corpus = X_train`, seed 42); the same fitted
state transformed the training and the test documents of the call
(`transform`, never `fit` — `buildWordEmbeddings` applies `B.embTransform`
to both with the identical fitted value); and as long as the stored entry
is unchanged, every later single-text prediction for that identity
vectorizes with that exact entry (`predictFromEntry` reads only the stored
extractor; no fitting operation exists on the prediction path). -/
theorem C6_dense_projection_fit_once {FC : Type} (B : Backend FC) (ck : Clock)
    (st : PipelineState FC) (k : String) (Xtr Xte : List String) (ytr yte : List ℕ)
    (hft : (List.lookup k MODEL_CONFIGS).map ModelConfig.feature = some "word_embeddings")
    (hok : (trainModel B ck st k Xtr Xte ytr yte).1.isOk = true) :
    ∃ entry : CacheEntry FC,
      dictGet (trainModel B ck st k Xtr Xte ytr yte).2.trained_models k = some entry ∧
      entry.feature_type = "word_embeddings" ∧
      entry.embedding_pipeline =
        some { n_components := 200, max_features := 20000, random_state := 42,
               corpus := Xtr } ∧
      (∃ mtr mte,
        B.embTransform ⟨200, 20000, 42, Xtr⟩ Xtr = .ok mtr ∧
        B.embTransform ⟨200, 20000, 42, Xtr⟩ Xte = .ok mte) ∧
      (∀ (st2 : PipelineState FC) (text : String),
        dictGet st2.trained_models k = some entry →
        predictText B st2 k text = predictFromEntry B k entry text) := by
  rcases trainModel_spec B ck st k Xtr Xte ytr yte with ⟨hbad, _⟩ |
    ⟨config, xtrv, xtev, spc, clf, y_pred, conf, hl, hfe, _, _, _, _, _, _, hcache⟩
  · rw [hok] at hbad
    cases hbad
  · have hfeat : config.feature = "word_embeddings" := by
      rw [hl] at hft
      simpa using hft
    have hnt : ¬ (config.feature = "tfidf") := by
      rw [hfeat]
      decide
    rw [if_neg hnt] at hfe
    refine ⟨{ model := clf
              feature_type := config.feature
              tfidf_vec := if config.feature = "tfidf" then some ⟨15000, Xtr⟩ else none
              embedding_pipeline :=
                if config.feature = "word_embeddings" then some ⟨200, 20000, 42, Xtr⟩
                else none }, ?_, ?_, ?_, ?_, ?_⟩
    · rw [hcache]
      exact dictGet_dictSet_self _ _ _
    · exact hfeat
    · dsimp only
      rw [if_pos hfeat]
    · unfold buildWordEmbeddings at hfe
      dsimp only at hfe
      rcases h1 : B.embTransform ⟨200, 20000, 42, Xtr⟩ Xtr with e | mtr
      · rw [h1] at hfe
        exact Except.noConfusion hfe
      · rw [h1] at hfe
        rcases h2 : B.embTransform ⟨200, 20000, 42, Xtr⟩ Xte with e | mte
        · rw [h2] at hfe
          exact Except.noConfusion hfe
        · exact ⟨mtr, mte, rfl, rfl⟩
    · intro st2 text h2
      unfold predictText
      rw [h2]

/-- C6 witness: a concrete dense-semantic training run on `w2v_svm`. -/
theorem C6_dense_projection_fit_once_witness :
    ((List.lookup "w2v_svm" MODEL_CONFIGS).map ModelConfig.feature =
      some "word_embeddings") ∧
    ((trainModel B0 ck0 (emptyPipelineState ℕ) "w2v_svm" Xtr0 Xte0 ytr0 yte0).1.isOk =
      true) ∧
    (∃ entry : CacheEntry ℕ,
      dictGet (trainModel B0 ck0 (emptyPipelineState ℕ) "w2v_svm" Xtr0 Xte0
          ytr0 yte0).2.trained_models "w2v_svm" = some entry ∧
      entry.feature_type = "word_embeddings" ∧
      entry.embedding_pipeline =
        some { n_components := 200, max_features := 20000, random_state := 42,
               corpus := Xtr0 } ∧
      (∃ mtr mte,
        B0.embTransform ⟨200, 20000, 42, Xtr0⟩ Xtr0 = .ok mtr ∧
        B0.embTransform ⟨200, 20000, 42, Xtr0⟩ Xte0 = .ok mte) ∧
      (∀ (st2 : PipelineState ℕ) (text : String),
        dictGet st2.trained_models "w2v_svm" = some entry →
        predictText B0 st2 "w2v_svm" text = predictFromEntry B0 "w2v_svm" entry text)) :=
  ⟨rfl, by decide,
    C6_dense_projection_fit_once B0 ck0 (emptyPipelineState ℕ) "w2v_svm"
      Xtr0 Xte0 ytr0 yte0 rfl (by decide)⟩


/-! ### Claim C8 — rounding and ranges -/

/-- C8 (amended): all reported rates (accuracy, precision, recall, F1,
average confidence) are rationals in `[0,1]` rounded to 4 decimal places;
rounding is presentation-only — applied once to the unrounded scores, and
the reported total time equals the sum of the three unrounded stage times
rounded once at the end, each stage time itself rounded to 3 decimals.
In the secondary engine (`ml_engine/pipeline.py`) the training time is
rounded to 4 decimals (not 3) and the single-prediction (inference)
latency to 6. -/
theorem C8_rounding_and_ranges :
    (∀ (k : String) (config : ModelConfig) (ft tt pt : ℚ) (yte yp : List ℕ)
        (conf : Option ℚ) (a b : ℕ),
      (scoreAndPackage k config ft tt pt yte yp conf a b).metrics.accuracy =
          roundTo 4 (accuracyScore yte yp) ∧
        (scoreAndPackage k config ft tt pt yte yp conf a b).metrics.precision =
          roundTo 4 (precisionScore yte yp) ∧
        (scoreAndPackage k config ft tt pt yte yp conf a b).metrics.recl =
          roundTo 4 (recallScore yte yp) ∧
        (scoreAndPackage k config ft tt pt yte yp conf a b).metrics.f1_score =
          roundTo 4 (f1Score yte yp) ∧
        (scoreAndPackage k config ft tt pt yte yp conf a b).timing.feature_extraction_sec =
          roundTo 3 ft ∧
        (scoreAndPackage k config ft tt pt yte yp conf a b).timing.training_sec =
          roundTo 3 tt ∧
        (scoreAndPackage k config ft tt pt yte yp conf a b).timing.prediction_sec =
          roundTo 3 pt ∧
        (scoreAndPackage k config ft tt pt yte yp conf a b).timing.total_sec =
          roundTo 3 (ft + tt + pt) ∧
        (scoreAndPackage k config ft tt pt yte yp conf a b).avg_confidence =
          pyTruthyRound4 conf) ∧
    (∀ yte yp : List ℕ,
      (0 ≤ accuracyScore yte yp ∧ accuracyScore yte yp ≤ 1) ∧
      (0 ≤ precisionScore yte yp ∧ precisionScore yte yp ≤ 1) ∧
      (0 ≤ recallScore yte yp ∧ recallScore yte yp ≤ 1) ∧
      (0 ≤ f1Score yte yp ∧ f1Score yte yp ≤ 1)) ∧
    (∀ (n : ℕ) (q : ℚ), 0 ≤ q → q ≤ 1 → 0 ≤ roundTo n q ∧ roundTo n q ≤ 1) ∧
    (∀ probas : List (List ℚ), probaValid probas →
      0 ≤ meanQ (probas.map listMaxQ) ∧ meanQ (probas.map listMaxQ) ≤ 1) ∧
    (∀ (name : String) (yte yp : List ℕ) (tt it : ℚ),
      (mlEngineTrainResult name yte yp tt it).accuracy = roundTo 4 (accuracyScore yte yp) ∧
      (mlEngineTrainResult name yte yp tt it).f1_score =
        roundTo 4 (f1ScoreWeighted yte yp) ∧
      (mlEngineTrainResult name yte yp tt it).train_time_s = roundTo 4 tt ∧
      (mlEngineTrainResult name yte yp tt it).inference_latency_s = roundTo 6 it) := by
  refine ⟨?_, ?_, ?_, ?_, ?_⟩
  · intro k config ft tt pt yte yp conf a b
    exact ⟨rfl, rfl, rfl, rfl, rfl, rfl, rfl, rfl, rfl⟩
  · intro yte yp
    exact ⟨accuracyScore_mem_unit yte yp, precisionScore_mem_unit yte yp,
      recallScore_mem_unit yte yp, f1Score_mem_unit yte yp⟩
  · exact fun n q h0 h1 => roundTo_mem_unit n q h0 h1
  · exact fun probas h => confidence_mem_unit probas h
  · intro name yte yp tt it
    exact ⟨rfl, rfl, rfl, rfl⟩

/-- C8 witness: concrete instantiations of the parts with hypotheses. -/
theorem C8_rounding_and_ranges_witness :
    (0 ≤ roundTo 4 (3/4) ∧ roundTo 4 (3/4) ≤ 1) ∧
    (0 ≤ meanQ ([[1/2, 1/2]].map listMaxQ) ∧ meanQ ([[1/2, 1/2]].map listMaxQ) ≤ 1) ∧
    (scoreAndPackage "tfidf_svm"
        { display_name := "TF-IDF + SVM", feature := "tfidf", classifier := "svm",
          description := "d" }
        1 1 1 [1] [1] (some (1/2)) 2 1).timing.total_sec = roundTo 3 (1 + 1 + 1) :=
  ⟨C8_rounding_and_ranges.2.2.1 4 (3/4) (by decide) (by decide),
   C8_rounding_and_ranges.2.2.2.1 [[1/2, 1/2]] (by unfold probaValid; decide),
   (C8_rounding_and_ranges.1 "tfidf_svm"
     { display_name := "TF-IDF + SVM", feature := "tfidf", classifier := "svm",
       description := "d" }
     1 1 1 [1] [1] (some (1/2)) 2 1).2.2.2.2.2.2.2.1⟩

/-- C8 counterexample (to "timing is rounded to 3 decimals"): the
engine's `train_time_s` is rounded to 4 decimals, so at a training time of
`0.1234` seconds the reported value `0.1234` differs from the 3-decimal
rounding `0.123` the claim prescribes. -/
theorem C8_counterexample :
    (mlEngineTrainResult "svm" [1] [1] (1234/10000) 0).train_time_s =
      roundTo 4 (1234/10000) ∧
    roundTo 4 (1234/10000) = 1234/10000 ∧
    roundTo 3 (1234/10000) = 123/1000 ∧
    ¬ ((mlEngineTrainResult "svm" [1] [1] (1234/10000) 0).train_time_s =
      roundTo 3 (1234/10000)) := by
  refine ⟨rfl, by decide, by decide, by decide⟩

/-! ### Claim C9 — out-of-vocabulary documents still transform -/

/-- C9: for every fitted extractor and every document the embedded
transform is total and yields a row of the fitted output width; a document
none of whose tokens (unigrams or bigrams) is in the fitted vocabulary —
in particular one whose cleaned form is the empty string — transforms to
the all-zero row on both the sparse-frequency and the dense-semantic
path, rather than failing.  The statements hold for every sublinear-log
function `qlog` and every length-preserving nonzero-row normalizer `nz`. -/
theorem C9_oov_transform :
    (∀ (qlog : ℕ → ℚ) (nz : List ℚ → List ℚ) (m : TfidfModel) (doc : String),
      (∀ w, (nz w).length = w.length) →
      m.idf.length = m.vocabulary.length →
      (tfidfDocTransform qlog nz m doc).length = m.vocabulary.length) ∧
    (∀ (qlog : ℕ → ℚ) (nz : List ℚ → List ℚ) (m : TfidfModel) (doc : String),
      (∀ t ∈ ngrams12 (sklearnTokens doc), t ∉ m.vocabulary) →
      tfidfDocTransform qlog nz m doc =
        List.replicate (min m.vocabulary.length m.idf.length) 0) ∧
    (∀ (nz : List ℚ → List ℚ) (m : SvdModel) (doc : String),
      (∀ w, (nz w).length = w.length) →
      (svdDocTransform nz m doc).length = m.components.length) ∧
    (∀ (nz : List ℚ → List ℚ) (m : SvdModel) (doc : String),
      (∀ t ∈ ngrams12 (sklearnTokens doc), t ∉ m.vocabulary) →
      svdDocTransform nz m doc = List.replicate m.components.length 0) := by
  have hmapzero : ∀ (L : List (List ℚ)), (L.map fun _ => (0:ℚ)) =
      List.replicate L.length 0 := by
    intro L
    induction L with
    | nil => rfl
    | cons x xs ih => simp [ih, List.replicate_succ]
  refine ⟨?_, ?_, ?_, ?_⟩
  · intro qlog nz m doc hnz hlen
    unfold tfidfDocTransform
    rw [l2normZeroAware_length _ _ hnz, List.length_zipWith]
    simp [countVector, hlen]
  · intro qlog nz m doc h
    unfold tfidfDocTransform
    rw [countVector_oov _ _ h, zipWith_tfWeight_replicate_zero]
    exact l2normZeroAware_replicate_zero nz _
  · intro nz m doc hnz
    unfold svdDocTransform
    rw [l2normZeroAware_length _ _ hnz, List.length_map]
  · intro nz m doc h
    unfold svdDocTransform
    rw [countVector_oov _ _ h]
    have hcast : ((List.replicate m.vocabulary.length (0:ℕ)).map fun (n : ℕ) => (n:ℚ)) =
        List.replicate m.vocabulary.length (0:ℚ) := by
      rw [List.map_replicate, Nat.cast_zero]
    rw [hcast]
    have hdot : (m.components.map fun row =>
        dotQ (List.replicate m.vocabulary.length (0:ℚ)) row) =
        m.components.map fun _ => (0:ℚ) :=
      List.map_congr_left fun row _ => dotQ_replicate_zero _ row
    rw [hdot, hmapzero m.components]
    exact l2normZeroAware_replicate_zero nz _

/-- C9 witness: the cleaned form of `"!!!"` is the empty string; it is
out-of-vocabulary for the fitted vocabulary `["hello", "world"]` and both
transforms map it to the zero row; the transforms also produce rows of the
fitted width on an arbitrary document. -/
theorem C9_oov_transform_witness :
    clean_text "!!!" = "" ∧
    (∀ t ∈ ngrams12 (sklearnTokens (clean_text "!!!")), t ∉ ["hello", "world"]) ∧
    tfidfDocTransform (fun _ => 0) id ⟨["hello", "world"], [1, 1]⟩ (clean_text "!!!") =
      [0, 0] ∧
    svdDocTransform id ⟨["hello", "world"], [[1, 2], [3, 4]]⟩ (clean_text "!!!") =
      [0, 0] ∧
    (tfidfDocTransform (fun _ => 0) id ⟨["hello", "world"], [1, 1]⟩ "so bad").length = 2 :=
  ⟨by decide, by decide,
   C9_oov_transform.2.1 (fun _ => 0) id ⟨["hello", "world"], [1, 1]⟩ (clean_text "!!!")
     (by decide),
   C9_oov_transform.2.2.2 id ⟨["hello", "world"], [[1, 2], [3, 4]]⟩ (clean_text "!!!")
     (by decide),
   C9_oov_transform.1 (fun _ => 0) id ⟨["hello", "world"], [1, 1]⟩ "so bad"
     (fun _ => rfl) rfl⟩

/-! ### Claim C10 — predict-all silently skips failures -/

/-- The accumulator loop of `predict_all_models` is a `filterMap` over the
cached identities. -/
theorem predictAllModels_loop {FC : Type} (B : Backend FC) (st : PipelineState FC)
    (text : String) :
    ∀ (l : List (String × CacheEntry FC)) (acc : List PredictAllItem),
      l.foldl
        (fun results p =>
          match predictText B st p.1 text with
          | .error _ => results
          | .ok r =>
            match List.lookup p.1 MODEL_CONFIGS with
            | none => results
            | some config =>
              results ++ [{ toPredictResult := r, display_name := config.display_name }])
        acc =
      acc ++ l.filterMap fun p =>
        match predictText B st p.1 text, List.lookup p.1 MODEL_CONFIGS with
        | .ok r, some config =>
          some { toPredictResult := r, display_name := config.display_name }
        | _, _ => none := by
  intro l
  induction l with
  | nil => intro acc; simp
  | cons p ps ih =>
    intro acc
    rcases hpt : predictText B st p.1 text with e | r
    · simp [List.foldl_cons, List.filterMap_cons, hpt, ih]
    · rcases hlk : List.lookup p.1 MODEL_CONFIGS with _ | config
      · simp [List.foldl_cons, List.filterMap_cons, hpt, hlk, ih]
      · simp [List.foldl_cons, List.filterMap_cons, hpt, hlk, ih]

/-- C10: `predict_all_models` iterates exactly the identities currently in
the trained-model cache and returns, in cache order, one result per
identity whose prediction (and config lookup) succeeds; a failing identity
is silently dropped — no error marker appears — so the result can be
strictly shorter than the cache, and an untrained identity is
indistinguishable from a failing one: a state without the identity and a
state where the identity's prediction raises produce the same output. -/
theorem C10_predict_all_models :
    (∀ (FC : Type) (B : Backend FC) (st : PipelineState FC) (text : String),
      predictAllModels B st text =
        st.trained_models.filterMap fun p =>
          match predictText B st p.1 text, List.lookup p.1 MODEL_CONFIGS with
          | .ok r, some config =>
            some { toPredictResult := r, display_name := config.display_name }
          | _, _ => none) ∧
    (∀ (FC : Type) (B : Backend FC) (st : PipelineState FC) (text : String),
      (predictAllModels B st text).length ≤ st.trained_models.length) ∧
    (predictAllModels BEmbFail stTW "hi" = predictAllModels BEmbFail stT "hi") ∧
    dictGet stT.trained_models "w2v_svm" = none ∧
    (predictText BEmbFail stTW "w2v_svm" "hi").isOk = false ∧
    (predictAllModels BEmbFail stTW "hi").length < stTW.trained_models.length := by
  have hchar : ∀ (FC : Type) (B : Backend FC) (st : PipelineState FC) (text : String),
      predictAllModels B st text =
        st.trained_models.filterMap fun p =>
          match predictText B st p.1 text, List.lookup p.1 MODEL_CONFIGS with
          | .ok r, some config =>
            some { toPredictResult := r, display_name := config.display_name }
          | _, _ => none := by
    intro FC B st text
    unfold predictAllModels
    rw [predictAllModels_loop B st text st.trained_models []]
    rfl
  refine ⟨hchar, ?_, by decide, by decide, by decide, by decide⟩
  intro FC B st text
  rw [hchar]
  exact List.length_filterMap_le _ _

end
